import Mathlib

/-!
# Verification of the calendar-splitter rule engine

A shallow embedding, in Lean 4, of the rule-loading, event-matching and
event-rewriting engine of the `calendar-splitter` repository
(`scripts/rules.py`, `scripts/rewrite.py`, `scripts/split.py`), together
with theorems settling the specification claims about it.

Rule documents are JSON, and the Python code manipulates them as untyped
dictionaries; we model the values by the inductive type `Value` below and
translate the Python functions clause by clause.  Computations that can
raise a Python exception are modelled in the `Except PyErr` monad; the
warnings the loader logs via `safe_warn` are modelled as a `List Warn`
accumulator.

External-library boundaries and how they are modelled:
* Python `re` (only for *dynamically* supplied patterns): rule documents in
  this code base use literal text patterns, so a dynamic pattern is modelled
  as a case-insensitive literal substring search (`RePattern.dyn`); a pattern
  string containing a regex metacharacter is treated as failing to compile,
  exercising the code's `except re.error` branches.  The module-level
  *fixed* patterns of `rewrite.py` / `rules.py` (`RE_COURSE_KTH_STYLE`,
  `RE_COURSE_PARENS`, `RE_KTH_COURSE_URL`, `DEFAULT_SUMMARY_RE`, `RE_LAB`,
  `RE_EXERCISE`) are each embedded as a dedicated search function that
  implements the regex's exact matching semantics over ASCII text.
* Python `int(...)` on strings is modelled for ASCII: optional surrounding
  whitespace, an optional sign, then a non-empty digit string.
* Python `str.format` is modelled for the validated templates used here:
  `{name}` fields are substituted (conversion/format-spec suffixes after
  `!`/`:` are ignored when recovering the name); brace escapes `{{`/`}}`
  render literally.
* `datetime` start values are modelled by the triple of the fields the code
  reads: `weekday()` (0 = Monday), `hour`, `minute`.
-/

namespace CalSplit

/-- JSON-like Python values as found in rule documents. -/
inductive Value where
  | vnull
  | vbool (b : Bool)
  | vint (n : Int)
  | vstr (s : String)
  | vlist (xs : List Value)
  | vdict (xs : List (String × Value))

/-- Python `v == s` for a string literal `s` (only another string can
compare equal to a string). -/
def Value.eqStr (v : Value) (s : String) : Bool :=
  match v with
  | .vstr t => t = s
  | _ => false

/-- Python exception classes that the embedded code can raise. -/
inductive PyErr where
  | typeError
  | valueError
  | attributeError
  | keyError
deriving DecidableEq

/-- Tokens for the warnings the loader logs through `safe_warn`. -/
inductive Warn where
  | unknownSchemaVersion
  | bothCourseFields
  | invalidPattern
  | itemNotDict
  | invalidNumber
  | nonPositiveNumber
  | duplicateNumber
  | invalidTemplate
  | revertTemplate
  | etNotDict
  | etFailed
  | invalidSummaryRegex
deriving DecidableEq

/-- Association-list lookup; models reading a key of a Python dict
(keys of a parsed JSON object are unique). -/
def alookup {κ α : Type} [DecidableEq κ] (d : List (κ × α)) (k : κ) : Option α :=
  match d with
  | [] => none
  | (k', v) :: tl => if k' = k then some v else alookup tl k

/-- Insert-or-overwrite, modelling Python `dict[k] = v` (an existing key
keeps its position, a new key is appended — CPython dict order). -/
def upsert {κ α : Type} [DecidableEq κ] (d : List (κ × α)) (k : κ) (v : α) :
    List (κ × α) :=
  match d with
  | [] => [(k, v)]
  | (k', v') :: tl => if k' = k then (k, v) :: tl else (k', v') :: upsert tl k v

/-- Python truthiness of a `Value`. -/
def truthy : Value → Bool
  | .vnull => false
  | .vbool b => b
  | .vint n => n != 0
  | .vstr s => s != ""
  | .vlist xs => !xs.isEmpty
  | .vdict xs => !xs.isEmpty

/-- Python iteration `for x in v`: lists yield their elements, strings
their characters, dicts their keys; other values raise `TypeError`. -/
def iterPy : Value → Except PyErr (List Value)
  | .vlist xs => .ok xs
  | .vstr s => .ok (s.data.map (fun c => .vstr ⟨[c]⟩))
  | .vdict xs => .ok (xs.map (fun kv => .vstr kv.1))
  | _ => .error .typeError

/-- The whitespace characters of Python `str.strip()` (ASCII). -/
def pyWs (c : Char) : Bool :=
  c = ' ' ∨ c = '\t' ∨ c = '\n' ∨ c = '\r' ∨ c = '\x0b' ∨ c = '\x0c'

/-- Drop trailing characters satisfying `pyWs`. -/
def dropTrail (l : List Char) : List Char :=
  (l.reverse.dropWhile pyWs).reverse

/-- Strip leading and trailing whitespace from a character list. -/
def stripL (l : List Char) : List Char :=
  dropTrail (l.dropWhile pyWs)

/-- Python `str.strip()`. -/
def pyStrip (s : String) : String := ⟨stripL s.data⟩

/-- Does `needle` occur at the head of `hay`? -/
def startsL : List Char → List Char → Bool
  | [], _ => true
  | _ :: _, [] => false
  | n :: ns, h :: hs => n = h ∧ startsL ns hs

/-- Contiguous-substring test on character lists (Python `needle in hay`). -/
def containsL (hay needle : List Char) : Bool :=
  match hay with
  | [] => needle.isEmpty
  | _ :: tl => startsL needle hay ∨ containsL tl needle

/-- Python `needle in hay` on strings. -/
def strContains (hay needle : String) : Bool :=
  containsL hay.data needle.data

/-- ASCII lower-casing of a character list. -/
def lowerL (l : List Char) : List Char := l.map Char.toLower

/-- Case-insensitive substring test (`x.lower() in y.lower()`). -/
def strContainsCI (hay needle : String) : Bool :=
  containsL (lowerL hay.data) (lowerL needle.data)

def isDigitC (c : Char) : Bool := '0' ≤ c ∧ c ≤ '9'

def digitVal (c : Char) : Nat := c.toNat - '0'.toNat

def digitsToNat (l : List Char) : Nat :=
  l.foldl (fun acc c => acc * 10 + digitVal c) 0

/-- Model of Python `int(s)` on an ASCII string: optional surrounding
whitespace, optional sign, then a non-empty digit string; anything else
raises `ValueError`. -/
def pyIntStr (s : String) : Except PyErr Int :=
  let t := stripL s.data
  let core : List Char → Except PyErr Nat := fun ds =>
    if ds ≠ [] ∧ ds.all isDigitC then .ok (digitsToNat ds) else .error .valueError
  match t with
  | '-' :: ds => (core ds).map (fun n => -(n : Int))
  | '+' :: ds => (core ds).map (fun n => (n : Int))
  | ds => (core ds).map (fun n => (n : Int))

/-- `try: int(v) except (ValueError, TypeError): None` on a `Value`
(note Python `int(True) = 1`). -/
def pyIntOfValue : Value → Option Int
  | .vint n => some n
  | .vbool b => some (if b then 1 else 0)
  | .vstr s => (pyIntStr s).toOption
  | _ => none

mutual

/-- Python `repr(v)` (containers display their elements with `repr`). -/
def pyRepr : Value → String
  | .vnull => "None"
  | .vbool b => if b then "True" else "False"
  | .vint n => toString n
  | .vstr s => "'" ++ s ++ "'"
  | .vlist xs => "[" ++ pyReprList xs ++ "]"
  | .vdict xs => "\x7b" ++ pyReprDict xs ++ "\x7d"
termination_by structural v => v

def pyReprList : List Value → String
  | [] => ""
  | [x] => pyRepr x
  | x :: tl => pyRepr x ++ ", " ++ pyReprList tl
termination_by structural l => l

def pyReprDict : List (String × Value) → String
  | [] => ""
  | [(k, v)] => "'" ++ k ++ "': " ++ pyRepr v
  | (k, v) :: tl => "'" ++ k ++ "': " ++ pyRepr v ++ ", " ++ pyReprDict tl
termination_by structural l => l

end

/-- Python `str(v)`: identity on strings, `repr` otherwise (they agree on
`None`, booleans, ints and containers). -/
def pyStr : Value → String
  | .vstr s => s
  | v => pyRepr v

/-- Python `str.capitalize()`: first character upper-cased, the rest
lower-cased. -/
def capitalizeStr (s : String) : String :=
  match s.data with
  | [] => ""
  | c :: tl => ⟨Char.toUpper c :: lowerL tl⟩

/-! ## Model of the module-level compiled regex patterns

Each fixed pattern of `rewrite.py` is embedded as a dedicated search
function over character lists, implementing the leftmost-match semantics
of `re.search` for that pattern (ASCII `\b`, `\d`, `\s`, `\w`). -/

def isUpperC (c : Char) : Bool := 'A' ≤ c ∧ c ≤ 'Z'

def isAlphaC (c : Char) : Bool :=
  ('A' ≤ c ∧ c ≤ 'Z') ∨ ('a' ≤ c ∧ c ≤ 'z')

/-- `\w` (ASCII): letters, digits, underscore. -/
def isWordC (c : Char) : Bool := isAlphaC c ∨ isDigitC c ∨ c = '_'

/-- Character class `[A-Z0-9]`. -/
def isUpDig (c : Char) : Bool := isUpperC c ∨ isDigitC c

/-- Character class `[A-Z0-9\-]` of `RE_KTH_COURSE_URL`. -/
def isUrlCodeC (c : Char) : Bool := isUpperC c ∨ isDigitC c ∨ c = '-'

/-- Attempt `([A-Z]{2}\d{4})\b` at the head of `cs` (the `\b` before the
match is checked by the caller). -/
def kthHere (cs : List Char) : Option String :=
  match cs with
  | a :: b :: c :: d :: e :: f :: rest =>
    if isUpperC a && isUpperC b && isDigitC c && isDigitC d && isDigitC e &&
        isDigitC f && (match rest with | [] => true | g :: _ => !isWordC g) then
      some ⟨[a, b, c, d, e, f]⟩
    else none
  | _ => none

/-- Leftmost search for `RE_COURSE_KTH_STYLE = \b([A-Z]{2}\d{4})\b`;
`prevWord` records whether the previous character was a word character. -/
def searchKthAux : List Char → Bool → Option String
  | [], _ => none
  | c :: rest, prevWord =>
    if !prevWord then
      match kthHere (c :: rest) with
      | some r => some r
      | none => searchKthAux rest (isWordC c)
    else searchKthAux rest (isWordC c)

def searchKth (s : String) : Option String := searchKthAux s.data false

/-- Attempt the body of `RE_COURSE_PARENS = \(([A-Z]{2,}[A-Z0-9]*\d[A-Z0-9]*)\)`
just after an opening parenthesis: the maximal `[A-Z0-9]` run must start
with two upper-case letters, contain a digit, and be followed by `)`. -/
def parensHere (cs : List Char) : Option String :=
  let run := cs.takeWhile isUpDig
  let ok : Bool :=
    (match run with
     | a :: b :: _ => isUpperC a && isUpperC b
     | _ => false) &&
    run.any isDigitC &&
    ((cs.drop run.length).head? = some ')')
  if ok then some ⟨run⟩ else none

def searchParensAux : List Char → Option String
  | [] => none
  | '(' :: rest =>
    (match parensHere rest with
     | some r => some r
     | none => searchParensAux rest)
  | _ :: rest => searchParensAux rest

def searchParens (s : String) : Option String := searchParensAux s.data

/-- Attempt the body of `RE_KTH_COURSE_URL = /course/([A-Z0-9\-]{4,})/`
just after a literal `/course/`. -/
def urlHere (cs : List Char) : Option String :=
  let run := cs.takeWhile isUrlCodeC
  if 4 ≤ run.length ∧ (cs.drop run.length).head? = some '/' then some ⟨run⟩
  else none

def searchUrlAux : List Char → Option String
  | [] => none
  | c :: rest =>
    if startsL "/course/".data (c :: rest) then
      match urlHere ((c :: rest).drop 8) with
      | some r => some r
      | none => searchUrlAux rest
    else searchUrlAux rest

def searchUrl (s : String) : Option String := searchUrlAux s.data

/-- Attempt `word\s{minSp,}(\d+)\b` (case-insensitive) at the head of `cs`:
used for `DEFAULT_SUMMARY_RE = \bLecture\s*(\d+)\b`,
`RE_LAB = \bLab\s+(\d+)\b` and `RE_EXERCISE = \bExercise\s+(\d+)\b`. -/
def kindHere (word : List Char) (minSp : Nat) (cs : List Char) : Option String :=
  if startsL word (lowerL cs) then
    let after := cs.drop word.length
    let sps := after.takeWhile pyWs
    if minSp ≤ sps.length then
      let tl := after.drop sps.length
      let digits := tl.takeWhile isDigitC
      if !digits.isEmpty &&
          (match tl.drop digits.length with
           | [] => true
           | g :: _ => !isWordC g) then
        some ⟨digits⟩
      else none
    else none
  else none

def searchKindAux (word : List Char) (minSp : Nat) : List Char → Bool → Option String
  | [], _ => none
  | c :: rest, prevWord =>
    if !prevWord then
      match kindHere word minSp (c :: rest) with
      | some r => some r
      | none => searchKindAux word minSp rest (isWordC c)
    else searchKindAux word minSp rest (isWordC c)

def searchKind (word : String) (minSp : Nat) (s : String) : Option String :=
  searchKindAux word.data minSp s.data false

/-- Compiled regex patterns as they occur in this code base: the three
fixed numbered-event patterns, or a dynamically supplied literal-text
pattern (see the module docstring for the `re` model). -/
inductive RePattern where
  | fixedLecture
  | fixedLab
  | fixedExercise
  | dyn (pat : String)
deriving DecidableEq

/-- Regex metacharacters: a dynamic pattern containing one is modelled as
failing to compile (`re.error`). -/
def isMetaC (c : Char) : Bool :=
  c = '\\' ∨ c = '^' ∨ c = '$' ∨ c = '.' ∨ c = '|' ∨ c = '?' ∨ c = '*' ∨
  c = '+' ∨ c = '(' ∨ c = ')' ∨ c = '[' ∨ c = ']' ∨ c = '\x7b' ∨ c = '\x7d'

/-- Model of `re.compile(pat, re.IGNORECASE)` for dynamic patterns. -/
def reCompileDyn (pat : String) : Option RePattern :=
  if pat.data.all (fun c => !isMetaC c) then some (.dyn pat) else none

/-- `pattern.search(s)`, reporting `none` (no match), `some none`
(match, but the pattern has no capturing group) or `some (some g)`
(match whose first group captured `g`). -/
def reGroupSearch : RePattern → String → Option (Option String)
  | .fixedLecture, s => (searchKind "lecture" 0 s).map some
  | .fixedLab, s => (searchKind "lab" 1 s).map some
  | .fixedExercise, s => (searchKind "exercise" 1 s).map some
  | .dyn p, s => if strContainsCI s p then some none else none

/-- `bool(pattern.search(s))`. -/
def reSearchBool (p : RePattern) (s : String) : Bool :=
  (reGroupSearch p s).isSome

/-! ## datetime model -/

/-- The fields of a `datetime` start value that the code reads:
`weekday()` (0 = Monday … 6 = Sunday), `hour` and `minute`. -/
structure PyDateTime where
  weekday : Nat
  hour : Nat
  minute : Nat
deriving DecidableEq

/-! ## `rules.py`: MatchStrategy -/

/-- `MatchStrategy` (rules.py).  `strategy` and `priority` are kept as raw
values, as the dataclass stores whatever the document supplied. -/
structure MatchStrategy where
  strategy : Value
  data : List (String × Value)
  priority : Value

/-- The body of `MatchStrategy.from_dict` on a dict. -/
def stratOfDict (d : List (String × Value)) : MatchStrategy :=
  { strategy := (alookup d "strategy").getD (.vstr "")
    data := d.filter (fun kv => kv.1 ≠ "strategy" ∧ kv.1 ≠ "priority")
    priority := (alookup d "priority").getD (.vint 99) }

/-- `MatchStrategy.from_dict` (rules.py): on a non-dict the attribute
access `data.get` raises `AttributeError`. -/
def MatchStrategy.fromDict : Value → Except PyErr MatchStrategy
  | .vdict d => .ok (stratOfDict d)
  | _ => .error .attributeError

/-- The weekday table of `matches_strategy` (rewrite.py). -/
def dayMap : List (String × Int) :=
  [("monday", 0), ("tuesday", 1), ("wednesday", 2), ("thursday", 3),
   ("friday", 4), ("saturday", 5), ("sunday", 6)]

/-- The day-of-week comparison of the time branch: a string day is mapped
through `dayMap` (default `-1`); Python `weekday() != day` compares a
`bool` as an int and is `True` (mismatch) for any other type. -/
def weekdayMatches (wd : Nat) (day : Value) : Bool :=
  match day with
  | .vstr s => ((alookup dayMap (⟨lowerL s.data⟩ : String)).getD (-1)) = (wd : Int)
  | .vint n => n = (wd : Int)
  | .vbool b => (if b then (1 : Int) else 0) = (wd : Int)
  | _ => false

/-- `parse_time` inside the time branch, applied to a raw value:
`t.replace(":", "")` then `int(t[:2]), int(t[2:4])`; a non-string raises
`AttributeError`, a non-parseable slice raises `ValueError`. -/
def pyParseTimeV : Value → Except PyErr (Int × Int)
  | .vstr s =>
    let t := s.data.filter (fun c => c ≠ ':')
    match pyIntStr ⟨t.take 2⟩ with
    | .error e => .error e
    | .ok h =>
      match pyIntStr ⟨(t.drop 2).take 2⟩ with
      | .error e => .error e
      | .ok m => .ok (h, m)
  | _ => .error .attributeError

/-- Python `"k" in v` for a list value: equality test against elements. -/
def listHasStr (xs : List Value) (k : String) : Bool :=
  xs.any (fun v => v.eqStr k)

mutual

/-- `matches_strategy` (rewrite.py).  The composite branches iterate over
the raw `strategies` value, re-parsing each element with
`MatchStrategy.from_dict`; any exception propagates (the code has no
handler except the `except re.error` around pattern compilation). -/
def matchesStrategy (strategy : Value) (data : List (String × Value))
    (summary description location : String) (start_dt : Option PyDateTime) :
    Except PyErr Bool :=
  match strategy with
  | .vstr sname =>
    if sname = "time" then
      match start_dt with
      | none => .ok false
      | some dt =>
        match (alookup data "timeslot").getD (.vdict []) with
        | .vstr _ => .ok false
        | .vdict ts =>
          let dayOk : Bool :=
            match alookup ts "day" with
            | some dayv => weekdayMatches dt.weekday dayv
            | none => true
          if !dayOk then .ok false
          else
            match alookup ts "start_time", alookup ts "end_time" with
            | some sv, some ev =>
              (match pyParseTimeV sv with
               | .error e => .error e
               | .ok (sh, sm) =>
                 match pyParseTimeV ev with
                 | .error e => .error e
                 | .ok (eh, em) =>
                   let evMin : Int := (dt.hour : Int) * 60 + dt.minute
                   .ok (sh * 60 + sm ≤ evMin ∧ evMin < eh * 60 + em : Bool))
            | _, _ => .ok true
        | .vlist xs =>
          if listHasStr xs "day" then .error .typeError
          else if listHasStr xs "start_time" && listHasStr xs "end_time" then
            .error .typeError
          else .ok true
        | _ => .error .typeError
    else if sname = "description" then
      let pv := (alookup data "pattern").getD (.vstr "")
      if !truthy pv then .ok false
      else
        match pv with
        | .vstr p =>
          (match reCompileDyn p with
           | none => .ok false
           | some pat => .ok (reSearchBool pat (summary ++ " " ++ description)))
        | _ => .error .typeError
    else if sname = "location" then
      let lv := (alookup data "location").getD (.vstr "")
      if !truthy lv then .ok false
      else
        match lv with
        | .vstr e => .ok (strContainsCI location e)
        | _ => .error .attributeError
    else if sname = "url" then
      let pv := (alookup data "pattern").getD (.vstr "")
      if !truthy pv then .ok false
      else
        match pv with
        | .vstr p =>
          (match reCompileDyn p with
           | none => .ok false
           | some pat => .ok (reSearchBool pat description))
        | _ => .error .typeError
    else if sname = "all" then
      match h : alookup data "strategies" with
      | none => .ok true
      | some sv =>
        match sv with
        | .vlist subs => matchesAll subs summary description location start_dt
        | .vstr s => if s.data.isEmpty then .ok true else .error .attributeError
        | .vdict ds => if ds.isEmpty then .ok true else .error .attributeError
        | _ => .error .typeError
    else if sname = "any" then
      match h : alookup data "strategies" with
      | none => .ok false
      | some sv =>
        match sv with
        | .vlist subs => matchesAny subs summary description location start_dt
        | .vstr s => if s.data.isEmpty then .ok false else .error .attributeError
        | .vdict ds => if ds.isEmpty then .ok false else .error .attributeError
        | _ => .error .typeError
    else .ok false
  | _ => .ok false
termination_by sizeOf data
decreasing_by
  all_goals
    simp_wf
    have h1 : sizeOf (Value.vlist subs) ≤ sizeOf data := by
      clear * - h
      induction data with
      | nil => simp [alookup] at h
      | cons kv tl ih =>
        obtain ⟨k, v⟩ := kv
        simp only [alookup] at h
        split at h
        · rw [Option.some_inj] at h
          subst h
          simp
          omega
        · have := ih h
          simp at this ⊢
          omega
    simp at h1
    omega

/-- The loop of the `all` branch: short-circuits on the first sub-strategy
that evaluates to false; exceptions propagate. -/
def matchesAll (subs : List Value) (summary description location : String)
    (start_dt : Option PyDateTime) : Except PyErr Bool :=
  match subs with
  | [] => .ok true
  | .vdict entries :: rest =>
    let st := stratOfDict entries
    (match matchesStrategy st.strategy st.data summary description location
        start_dt with
     | .error e => .error e
     | .ok true => matchesAll rest summary description location start_dt
     | .ok false => .ok false)
  | _ :: _ => .error .attributeError
termination_by sizeOf subs
decreasing_by
  all_goals simp_wf
  all_goals
    first
    | omega
    | (have h2 : sizeOf (entries.filter
          fun kv => decide (kv.1 ≠ "strategy" ∧ kv.1 ≠ "priority")) ≤ sizeOf entries := by
        induction entries with
        | nil => simp
        | cons kv tl ih =>
          simp only [List.filter]
          split <;> simp only [List.cons.sizeOf_spec] <;> omega
       simp [stratOfDict] at *
       omega)

/-- The loop of the `any` branch: short-circuits on the first sub-strategy
that evaluates to true; exceptions propagate. -/
def matchesAny (subs : List Value) (summary description location : String)
    (start_dt : Option PyDateTime) : Except PyErr Bool :=
  match subs with
  | [] => .ok false
  | .vdict entries :: rest =>
    let st := stratOfDict entries
    (match matchesStrategy st.strategy st.data summary description location
        start_dt with
     | .error e => .error e
     | .ok true => .ok true
     | .ok false => matchesAny rest summary description location start_dt)
  | _ :: _ => .error .attributeError
termination_by sizeOf subs
decreasing_by
  all_goals simp_wf
  all_goals
    first
    | omega
    | (have h2 : sizeOf (entries.filter
          fun kv => decide (kv.1 ≠ "strategy" ∧ kv.1 ≠ "priority")) ≤ sizeOf entries := by
        induction entries with
        | nil => simp
        | cons kv tl ih =>
          simp only [List.filter]
          split <;> simp only [List.cons.sizeOf_spec] <;> omega
       simp [stratOfDict] at *
       omega)

end

/-! ## `rules.py`: EventItem, EventType -/

/-- `EventItem` (rules.py). -/
structure EventItem where
  number : Option Int
  metadata : List (String × Value)
  match_strategies : List MatchStrategy

/-- `EventItem.get(key)` with its default `""`. -/
def EventItem.get (it : EventItem) (k : String) : Value :=
  (alookup it.metadata k).getD (.vstr "")

/-- `EventItem.from_dict` (rules.py): number coercion falls back to `None`
on `ValueError`/`TypeError`; strategy extraction follows the
`match_priority` / `match` / `timeslot` / `group` precedence, everything
else becomes metadata.  On a non-dict the `.get` attribute access raises. -/
def EventItem.fromDict : Value → Except PyErr EventItem
  | .vdict d =>
    let number : Option Int :=
      match alookup d "number" with
      | none => none
      | some nv => pyIntOfValue nv
    let strategiesE : Except PyErr (List MatchStrategy) :=
      match alookup d "match_priority" with
      | some mp =>
        (match iterPy mp with
         | .error e => .error e
         | .ok xs => xs.mapM MatchStrategy.fromDict)
      | none =>
        match alookup d "match" with
        | some m =>
          (match MatchStrategy.fromDict m with
           | .error e => .error e
           | .ok st => .ok [st])
        | none =>
          match alookup d "timeslot" with
          | some ts =>
            .ok [{ strategy := .vstr "time", data := [("timeslot", ts)],
                   priority := .vint 99 }]
          | none =>
            match alookup d "group" with
            | some g =>
              .ok [{ strategy := .vstr "description", data := [("pattern", g)],
                     priority := .vint 99 }]
            | none => .ok []
    match strategiesE with
    | .error e => .error e
    | .ok strategies =>
      .ok { number := number
            metadata := d.filter (fun kv =>
              kv.1 ≠ "number" ∧ kv.1 ≠ "match" ∧ kv.1 ≠ "match_priority" ∧
              kv.1 ≠ "timeslot" ∧ kv.1 ≠ "group")
            match_strategies := strategies }
  | _ => .error .attributeError

/-- `EventType` (rules.py); `items` is the dict keyed by the (possibly
`None`) parsed item number. -/
structure EventType where
  type : String
  display_name : Value
  patterns : List RePattern
  items : List (Option Int × EventItem)
  unnumbered : Bool

/-- The items loop of `EventType.from_dict`: each parsed item is stored
under its number, overwriting a previous entry with the same key. -/
def etItemsFold (ivs : List Value) : Except PyErr (List (Option Int × EventItem)) :=
  ivs.foldlM (fun acc iv =>
    match EventItem.fromDict iv with
    | .error e => .error e
    | .ok it => .ok (upsert acc it.number it)) []

/-- The patterns loop of `EventType.from_dict`: string patterns that fail
to compile are dropped with a warning (`except re.error`); a non-string
pattern raises `TypeError` out of `re.compile`. -/
def etPatternsFold (pvs : List Value) :
    Except PyErr (List RePattern × List Warn) :=
  pvs.foldlM (fun acc pv =>
    match pv with
    | .vstr p =>
      (match reCompileDyn p with
       | some pat => .ok (acc.1 ++ [pat], acc.2)
       | none => .ok (acc.1, acc.2 ++ [.invalidPattern]))
    | _ => .error .typeError) ([], [])

/-- `EventType.from_dict` (rules.py).  Note `display_name` defaults to
`type_name.capitalize()`, which Python evaluates eagerly, so a non-string
`type` raises `AttributeError` even when `display_name` is present. -/
def EventType.fromDict : Value → Except PyErr (EventType × List Warn)
  | .vdict d =>
    (match (alookup d "type").getD (.vstr "unknown") with
     | .vstr tn =>
       let display := (alookup d "display_name").getD (.vstr (capitalizeStr tn))
       let unnumbered := truthy ((alookup d "unnumbered").getD (.vbool false))
       let plistRaw := (alookup d "patterns").getD (.vlist [])
       let plistE : Except PyErr (List Value) :=
         match plistRaw with
         | .vstr s => .ok [.vstr s]
         | v => iterPy v
       match plistE with
       | .error e => .error e
       | .ok pvs =>
         match etPatternsFold pvs with
         | .error e => .error e
         | .ok (patterns, ws) =>
           match iterPy ((alookup d "items").getD (.vlist [])) with
           | .error e => .error e
           | .ok ivs =>
             match etItemsFold ivs with
             | .error e => .error e
             | .ok items =>
               .ok ({ type := tn, display_name := display, patterns := patterns,
                      items := items, unnumbered := unnumbered }, ws)
     | _ => .error .attributeError)
  | _ => .error .attributeError

/-- Sort key for strategy priorities.  The rule documents of this code
base use integer priorities (the dataclass default is `99`); Python's
`sorted` would raise on incomparable mixed types, which no claim
exercises, so other values are keyed as `0` here. -/
def priKey : Value → Int
  | .vint n => n
  | .vbool b => if b then 1 else 0
  | _ => 0

def insertByPri (x : MatchStrategy) : List MatchStrategy → List MatchStrategy
  | [] => [x]
  | y :: tl =>
    if priKey y.priority ≤ priKey x.priority then y :: insertByPri x tl
    else x :: y :: tl

/-- Stable sort by ascending priority (`sorted(..., key=lambda s: s.priority)`). -/
def sortByPri : List MatchStrategy → List MatchStrategy
  | [] => []
  | x :: tl => insertByPri x (sortByPri tl)

def anyStrategyMatches (sts : List MatchStrategy)
    (summary description location : String) (start_dt : Option PyDateTime) :
    Except PyErr Bool :=
  match sts with
  | [] => .ok false
  | st :: rest =>
    match matchesStrategy st.strategy st.data summary description location
        start_dt with
    | .error e => .error e
    | .ok true => .ok true
    | .ok false => anyStrategyMatches rest summary description location start_dt

/-- `matches_item` (rewrite.py): an item with no strategies matches
unconditionally, otherwise the strategies are tried in ascending priority
order and the first match wins. -/
def matchesItem (it : EventItem) (summary description location : String)
    (start_dt : Option PyDateTime) : Except PyErr Bool :=
  if it.match_strategies.isEmpty then .ok true
  else anyStrategyMatches (sortByPri it.match_strategies) summary description
    location start_dt

/-! ## Template validation and `str.format` -/

/-- A format field's variable name: the part before any `!` conversion or
`:` format spec. -/
def fieldName (nm : List Char) : String :=
  ⟨nm.takeWhile (fun c => c ≠ ':' ∧ c ≠ '!')⟩

/-- Scanner behind `string.Formatter().parse`: collects the field names of
a template; `none` models a `ValueError` from malformed braces
(`validate_template` catches it).  The accumulator holds the characters of
the field currently being read, reversed. -/
def parseFieldsGo : List Char → Option (List Char) → Option (List String)
  | [], none => some []
  | [], some _ => none
  | c :: rest, some acc =>
    if c = '\x7d' then (parseFieldsGo rest none).map (fieldName acc.reverse :: ·)
    else parseFieldsGo rest (some (c :: acc))
  | '\x7b' :: '\x7b' :: rest, none => parseFieldsGo rest none
  | '\x7b' :: rest, none => parseFieldsGo rest (some [])
  | '\x7d' :: '\x7d' :: rest, none => parseFieldsGo rest none
  | '\x7d' :: _, none => none
  | _ :: rest, none => parseFieldsGo rest none

/-- `validate_template` (rules.py): `True` iff the template parses and all
its (non-empty) field names are allowed. -/
def validateTemplate (tpl : String) (allowed : List String) : Bool :=
  match parseFieldsGo tpl.data none with
  | none => false
  | some fs => (fs.filter (· ≠ "")).all (fun f => allowed.contains f)

/-- Model of `str.format` for the templates used here: `{name}` fields are
substituted with `pyStr` of the bound value, `{{`/`}}` render literally.
Unknown fields and stray braces render as-is (CPython would raise
`KeyError`/`ValueError` there, which the load-time template validation
rules out for the templates that reach `rewrite_event`); `!`/`:` suffixes
are ignored when recovering the name. -/
def fmtGo (args : List (String × Value)) : List Char → Option (List Char) → List Char
  | [], none => []
  | [], some acc => '\x7b' :: acc.reverse
  | c :: rest, some acc =>
    if c = '\x7d' then
      (match alookup args (fieldName acc.reverse) with
       | some v => (pyStr v).data ++ fmtGo args rest none
       | none => '\x7b' :: acc.reverse ++ '\x7d' :: fmtGo args rest none)
    else fmtGo args rest (some (c :: acc))
  | '\x7b' :: '\x7b' :: rest, none => '\x7b' :: fmtGo args rest none
  | '\x7b' :: rest, none => fmtGo args rest (some [])
  | '\x7d' :: '\x7d' :: rest, none => '\x7d' :: fmtGo args rest none
  | '\x7d' :: rest, none => '\x7d' :: fmtGo args rest none
  | c :: rest, none => c :: fmtGo args rest none

def pyFormat (tpl : String) (args : List (String × Value)) : String :=
  ⟨fmtGo args tpl.data none⟩

/-! ## `rules.py`: schema detection and CourseRules loading -/

/-- A legacy `{title, module}` item record (both values are stored as
stripped strings by the loader). -/
structure Info where
  title : String
  module : String

def defaultTitleTemplate : String :=
  "\x7bkind\x7d \x7bn\x7d - \x7btitle\x7d - \x7bcourse\x7d"

def defaultDescTemplate : String :=
  "\x7bmodule\x7d\nCanvas: \x7bcanvas\x7d\n\n\x7bold_desc\x7d"

/-- `CourseRules` (rules.py). -/
structure CourseRules where
  course : String
  canvas : Option String := none
  require_course_in_summary : Bool := false
  summary_regex : Option RePattern := none
  title_template : String := defaultTitleTemplate
  description_template : String := defaultDescTemplate
  event_types : List EventType := []
  lectures : List (Int × Info) := []
  labs : List (Int × Info) := []
  exercises : List (Int × Info) := []

inductive Schema where
  | A
  | B
deriving DecidableEq

/-- The field-based inference tail of `detect_schema`. -/
def detectInfer (d : List (String × Value)) (w0 : List Warn) :
    Except PyErr (Schema × List Warn) :=
  let hasC := (alookup d "course").isSome
  let hasCC := (alookup d "course_code").isSome
  if hasC ∧ ¬hasCC then .ok (.A, w0)
  else if hasCC ∧ ¬hasC then .ok (.B, w0)
  else if hasC ∧ hasCC then .ok (.A, w0 ++ [.bothCourseFields])
  else .error .valueError

/-- `detect_schema` (rules.py): an explicit recognized `schema_version`
decides; an unrecognized one warns and falls through to inference; with
neither identifier field present a `ValueError` is raised. -/
def detectSchema (d : List (String × Value)) : Except PyErr (Schema × List Warn) :=
  match alookup d "schema_version" with
  | some v =>
    if v.eqStr "A" || v.eqStr "a" || v.eqStr "1" then .ok (.A, [])
    else if v.eqStr "B" || v.eqStr "b" || v.eqStr "2" then .ok (.B, [])
    else detectInfer d [.unknownSchemaVersion]
  | none => detectInfer d []

/-- One step of the numbered-item ingestion loop shared by the Schema A
`items` loop and the Schema B `ingest` helper (rules.py): non-dict
entries, non-parseable numbers and non-positive numbers are skipped with a
warning; a duplicate number warns and overwrites. -/
def ingestStep (acc : List (Int × Info) × List Warn) (iv : Value) :
    List (Int × Info) × List Warn :=
  match iv with
  | .vdict item =>
    (match (match alookup item "number" with
            | none => none
            | some nv => pyIntOfValue nv) with
     | none => (acc.1, acc.2 ++ [.invalidNumber])
     | some n =>
       if n ≤ 0 then (acc.1, acc.2 ++ [.nonPositiveNumber])
       else
         let w : List Warn :=
           if (alookup acc.1 n).isSome then [.duplicateNumber] else []
         (upsert acc.1 n
           { title := pyStrip (pyStr ((alookup item "title").getD (.vstr "")))
             module := pyStrip (pyStr ((alookup item "module").getD (.vstr ""))) },
          acc.2 ++ w))
  | _ => (acc.1, acc.2 ++ [.itemNotDict])

def ingestItems (ivs : List Value) : List (Int × Info) × List Warn :=
  ivs.foldl ingestStep ([], [])

/-- `(data.get(key) or "").strip() or None` used for `canvas` /
`canvas_url`: falsy values give `None`; a truthy non-string raises
`AttributeError` at `.strip()`. -/
def parseOptStrField (d : List (String × Value)) (key : String) :
    Except PyErr (Option String) :=
  let v := (alookup d key).getD .vnull
  if truthy v then
    match v with
    | .vstr s => .ok (let t := pyStrip s; if t = "" then none else some t)
    | _ => .error .attributeError
  else .ok none

/-- `match = data.get("match") or {}` followed by the two `.get` reads; a
truthy non-dict raises `AttributeError`. -/
def parseMatchBlock (d : List (String × Value)) :
    Except PyErr (Bool × Option Value) :=
  let mv := (alookup d "match").getD .vnull
  if truthy mv then
    match mv with
    | .vdict m =>
      .ok (truthy ((alookup m "require_course_in_summary").getD (.vbool false)),
           alookup m "summary_regex")
    | _ => .error .attributeError
  else .ok (false, none)

/-- `if srx: try: re.compile(srx) except re.error: DEFAULT_SUMMARY_RE`.
Schema B additionally logs a warning on the fallback (Schema A does not);
a truthy non-string raises `TypeError` out of `re.compile`, which the
`except re.error` does not catch. -/
def parseSummaryRegexV (sv? : Option Value) (warnOnInvalid : Bool) :
    Except PyErr (Option RePattern × List Warn) :=
  match sv? with
  | none => .ok (none, [])
  | some sv =>
    if truthy sv then
      match sv with
      | .vstr s =>
        (match reCompileDyn s with
         | some p => .ok (some p, [])
         | none =>
           .ok (some .fixedLecture,
                if warnOnInvalid then [.invalidSummaryRegex] else []))
      | _ => .error .typeError
    else .ok (none, [])

/-- Template field: `str(...)` then validate, keeping the default (with
two warnings) on failure. -/
def parseTemplate (d : List (String × Value)) (key : String)
    (allowed : List String) (dflt : String) : String × List Warn :=
  match alookup d key with
  | none => (dflt, [])
  | some v =>
    let tpl := pyStr v
    if validateTemplate tpl allowed then (tpl, [])
    else (dflt, [.invalidTemplate, .revertTemplate])

/-- The `event_types` parsing loop of `from_json`: non-dict entries are
skipped with a warning, and an exception from `EventType.from_dict` is
caught and logged (the surrounding `try`/`except Exception`). -/
def parseETList (vals : List Value) : List EventType × List Warn :=
  vals.foldl (fun acc x =>
    match x with
    | .vdict _ =>
      (match EventType.fromDict x with
       | .ok (et, ws) => (acc.1 ++ [et], acc.2 ++ ws)
       | .error _ => (acc.1, acc.2 ++ [.etFailed]))
    | _ => (acc.1, acc.2 ++ [.etNotDict])) ([], [])

/-- The legacy-bucket-to-EventType migration of `from_json`: each
`{title, module}` pair becomes an `EventItem` with no match strategies. -/
def migrateBucket (kind display : String) (pat : RePattern)
    (bucket : List (Int × Info)) : EventType :=
  { type := kind
    display_name := .vstr display
    patterns := [pat]
    items := bucket.map (fun nv =>
      (some nv.1,
       { number := some nv.1
         metadata := [("title", Value.vstr nv.2.title),
                      ("module", Value.vstr nv.2.module)]
         match_strategies := [] }))
    unnumbered := false }

/-- `data.get(key) or []` followed by iteration. -/
def getIterList (d : List (String × Value)) (key : String) :
    Except PyErr (List Value) :=
  let v := (alookup d key).getD .vnull
  if truthy v then iterPy v else .ok []

def allowedTitleVars : List String := ["kind", "n", "title", "course"]

def allowedDescVars : List String := ["module", "canvas", "old_desc"]

/-- The `event_types` block of `from_json`: if the key is present its
value is iterated (a non-iterable raises `TypeError`, uncaught) and parsed
with `parseETList`; otherwise the pre-computed legacy migration is used. -/
def parseETBlock (v? : Option Value) (migrated : List EventType) :
    Except PyErr (List EventType × List Warn) :=
  match v? with
  | some ev =>
    (match iterPy ev with
     | .error e => .error e
     | .ok vals => .ok (parseETList vals))
  | none => .ok (migrated, [])

/-- The Schema A branch of `CourseRules.from_json` (rules.py). -/
def fromJsonA (d : List (String × Value)) (w0 : List Warn) :
    Except PyErr (CourseRules × List Warn) :=
  match alookup d "course" with
  | none => .error .keyError
  | some courseV =>
    let course := pyStrip (pyStr courseV)
    match parseOptStrField d "canvas" with
    | .error e => .error e
    | .ok canvas =>
      match parseMatchBlock d with
      | .error e => .error e
      | .ok (rcs, srxv) =>
        match parseSummaryRegexV srxv false with
        | .error e => .error e
        | .ok (srx, w1) =>
          let (ttpl, w2) := parseTemplate d "title_template" allowedTitleVars
            defaultTitleTemplate
          let (dtpl, w3) := parseTemplate d "description_template"
            allowedDescVars defaultDescTemplate
          match getIterList d "items" with
          | .error e => .error e
          | .ok ivs =>
            let (lectures, w4) := ingestItems ivs
            match parseETBlock (alookup d "event_types")
                (if lectures.isEmpty then []
                 else [migrateBucket "lecture" "Lecture" .fixedLecture lectures]) with
            | .error e => .error e
            | .ok (ets, w5) =>
              .ok ({ course := course, canvas := canvas
                     require_course_in_summary := rcs, summary_regex := srx
                     title_template := ttpl, description_template := dtpl
                     event_types := ets, lectures := lectures
                     labs := [], exercises := [] },
                   w0 ++ w1 ++ w2 ++ w3 ++ w4 ++ w5)

/-- The Schema B branch of `CourseRules.from_json` (rules.py). -/
def fromJsonB (d : List (String × Value)) (w0 : List Warn) :
    Except PyErr (CourseRules × List Warn) :=
  let course := pyStrip (pyStr ((alookup d "course_code").getD (.vstr "")))
  if course = "" then .error .valueError
  else
    match parseOptStrField d "canvas_url" with
    | .error e => .error e
    | .ok canvas =>
      match parseMatchBlock d with
      | .error e => .error e
      | .ok (rcs, srxv) =>
        match parseSummaryRegexV srxv true with
        | .error e => .error e
        | .ok (srx, w1) =>
          let (ttpl, w2) := parseTemplate d "title_template" allowedTitleVars
            defaultTitleTemplate
          let (dtpl, w3) := parseTemplate d "description_template"
            allowedDescVars defaultDescTemplate
          match getIterList d "lectures" with
          | .error e => .error e
          | .ok lvs =>
            let (lectures, w4) := ingestItems lvs
            match getIterList d "labs" with
            | .error e => .error e
            | .ok bvs =>
              let (labs, w5) := ingestItems bvs
              match getIterList d "exercises" with
              | .error e => .error e
              | .ok evs =>
                let (exercises, w6) := ingestItems evs
                match parseETBlock (alookup d "event_types")
                    ((if lectures.isEmpty then []
                      else [migrateBucket "lecture" "Lecture" .fixedLecture
                             lectures]) ++
                     (if labs.isEmpty then []
                      else [migrateBucket "lab" "Lab" .fixedLab labs]) ++
                     (if exercises.isEmpty then []
                      else [migrateBucket "exercise" "Exercise" .fixedExercise
                             exercises])) with
                | .error e => .error e
                | .ok (ets, w7) =>
                  .ok ({ course := course, canvas := canvas
                         require_course_in_summary := rcs, summary_regex := srx
                         title_template := ttpl, description_template := dtpl
                         event_types := ets, lectures := lectures
                         labs := labs, exercises := exercises },
                       w0 ++ w1 ++ w2 ++ w3 ++ w4 ++ w5 ++ w6 ++ w7)

/-- `CourseRules.from_json` (rules.py). -/
def fromJson (d : List (String × Value)) : Except PyErr (CourseRules × List Warn) :=
  match detectSchema d with
  | .error e => .error e
  | .ok (.A, w0) => fromJsonA d w0
  | .ok (.B, w0) => fromJsonB d w0

/-! ## `rewrite.py`: course detection, number/kind extraction, rewriting -/

/-- `detect_course_code` (rewrite.py): KTH-style code in the summary, then
parenthesized identifier in the summary, then `/course/<code>/` in the
description. -/
def detectCourseCode (summary description : String) : Option String :=
  match searchKth summary with
  | some c => some c
  | none =>
    match searchParens summary with
    | some c => some c
    | none => searchUrl description

/-- The inner patterns loop of `extract_number_and_kind` for one event
type: on a match, an unnumbered type or a group-less pattern yields no
number; a first group that fails to parse as an int makes the loop
`continue` with the next pattern. -/
def scanPatterns (et : EventType) (pats : List RePattern) (s : String) :
    Option (Option Int × Option String) :=
  match pats with
  | [] => none
  | p :: rest =>
    match reGroupSearch p s with
    | none => scanPatterns et rest s
    | some g =>
      if et.unnumbered then some (none, some et.type)
      else
        match g with
        | none => some (none, some et.type)
        | some gs =>
          (match pyIntStr gs with
           | .ok n => some (some n, some et.type)
           | .error _ => scanPatterns et rest s)

/-- The outer `event_types` loop of `extract_number_and_kind`. -/
def etScan (ets : List EventType) (s : String) :
    Option (Option Int × Option String) :=
  match ets with
  | [] => none
  | et :: rest =>
    match scanPatterns et et.patterns s with
    | some r => some r
    | none => etScan rest s

/-- One legacy pattern attempt: a match whose first group parses as an int
returns `(n, kind)`; a failed parse or missing group is swallowed
(`except Exception: pass`) and the caller moves on. -/
def tryLegacyPat (pat : RePattern) (kind : String) (s : String) :
    Option (Option Int × Option String) :=
  match reGroupSearch pat s with
  | some (some g) =>
    (match pyIntStr g with
     | .ok n => some (some n, some kind)
     | .error _ => none)
  | _ => none

/-- The legacy tail of `extract_number_and_kind`: the per-course
`summary_regex` (kind `lecture`), then `DEFAULT_SUMMARY_RE`, `RE_LAB`,
`RE_EXERCISE`. -/
def legacyScan (s : String) (cr? : Option CourseRules) :
    Option Int × Option String :=
  let viaCustom : Option (Option Int × Option String) :=
    match cr? with
    | some cr =>
      (match cr.summary_regex with
       | some pat => tryLegacyPat pat "lecture" s
       | none => none)
    | none => none
  (viaCustom <|> tryLegacyPat .fixedLecture "lecture" s <|>
   tryLegacyPat .fixedLab "lab" s <|>
   tryLegacyPat .fixedExercise "exercise" s).getD (none, none)

/-- `extract_number_and_kind` (rewrite.py). -/
def extractNumberAndKind (s : String) (cr? : Option CourseRules) :
    Option Int × Option String :=
  match cr? with
  | some cr =>
    if !cr.event_types.isEmpty then
      match etScan cr.event_types s with
      | some r => r
      | none => legacyScan s cr?
    else legacyScan s cr?
  | none => legacyScan s none

/-- Truthiness of the extracted `kind` (`if kind:`). -/
def kindTruthy : Option String → Bool
  | some k => k ≠ ""
  | none => false

/-- The number/kind extraction, metadata resolution and SUMMARY section of
`rewrite_event` (rewrite.py lines 142–197): returns the new summary and
the resolved `module` value (the `metadata` dict the code assembles is only
read back by the `if not metadata` test and is dead afterwards). -/
def resolveSummaryModule (summary course : String) (cr : CourseRules) :
    String × Value :=
  let nk := extractNumberAndKind summary (some cr)
  let n := nk.1
  let kind := nk.2
  let triple0 : Value × Value × List (String × Value) :=
    if !cr.event_types.isEmpty && kindTruthy kind then
      match cr.event_types.find? (fun et => kind = some et.type) with
      | some et =>
        (match alookup et.items n with
         | some item => (item.get "title", item.get "module", item.metadata)
         | none => (.vnull, .vnull, []))
      | none => (.vnull, .vnull, [])
    else (.vnull, .vnull, [])
  let pair1 : Value × Value :=
    if triple0.2.2.isEmpty && n.isSome then
      let info? : Option Info :=
        match n with
        | some nn =>
          if kind = some "lecture" then alookup cr.lectures nn
          else if kind = some "lab" then alookup cr.labs nn
          else if kind = some "exercise" then alookup cr.exercises nn
          else none
        | none => none
      match info? with
      | some info =>
        let t := pyStrip info.title
        let m := pyStrip info.module
        ((if t ≠ "" then Value.vstr t else .vnull),
         (if m ≠ "" then Value.vstr m else .vnull))
      | none => (triple0.1, triple0.2.1)
    else (triple0.1, triple0.2.1)
  let title := pair1.1
  let module := pair1.2
  let newSummary : String :=
    if truthy title && n.isSome then
      let tpl := if cr.title_template ≠ "" then cr.title_template
                 else defaultTitleTemplate
      let prefixV : Value :=
        if kindTruthy kind && !cr.event_types.isEmpty then
          match cr.event_types.find? (fun et => kind = some et.type) with
          | some et => et.display_name
          | none => .vstr (capitalizeStr (kind.getD ""))
        else
          .vstr (if kind = some "lecture" then "Lecture"
                 else if kind = some "lab" then "Lab" else "Exercise")
      pyFormat tpl [("kind", prefixV), ("n", .vint (n.getD 0)),
                    ("title", title), ("course", .vstr course)]
    else summary
  (newSummary, module)

/-- `(module or "").strip()` of the template branch: a truthy non-string
raises `AttributeError`. -/
def moduleStrE (module : Value) : Except PyErr String :=
  if truthy module then
    match module with
    | .vstr ms => .ok (pyStrip ms)
    | _ => .error .attributeError
  else .ok ""

/-- The string check `"\n\n".join(parts)` performs on its arguments: a
non-string part raises `TypeError`. -/
def strListE (parts : List Value) : Except PyErr (List String) :=
  parts.mapM (fun v =>
    match v with
    | Value.vstr s => Except.ok s
    | _ => Except.error PyErr.typeError)

/-- The DESCRIPTION section of `rewrite_event` (rewrite.py lines
199–216): template rendering when the original description is non-empty,
part concatenation otherwise.  A truthy non-string `module` raises:
`AttributeError` at `(module or "").strip()` in the template branch,
`TypeError` at `"\n\n".join(parts)` in the synthesis branch. -/
def buildDescription (module : Value) (cr : CourseRules)
    (description : Option String) : Except PyErr String :=
  if pyStrip (description.getD "") ≠ "" then
    match moduleStrE module with
    | .error e => .error e
    | .ok moduleStr =>
      .ok (pyStrip (pyFormat
            (if cr.description_template ≠ "" then cr.description_template
             else defaultDescTemplate)
            [("module", .vstr moduleStr),
             ("canvas", .vstr (pyStrip (cr.canvas.getD ""))),
             ("old_desc", .vstr (pyStrip (description.getD "")))]))
  else
    match strListE
        ((if truthy module then [module] else []) ++
         (if cr.canvas.getD "" ≠ "" then
            [Value.vstr ("Canvas: " ++ cr.canvas.getD "")] else []) ++
         (if pyStrip (description.getD "") ≠ "" then
            [Value.vstr (pyStrip (description.getD ""))] else [])) with
    | .error e => .error e
    | .ok strs => .ok (pyStrip (String.intercalate "\n\n" strs))

/-- `rewrite_event` (rewrite.py), four-parameter version.  The description
argument is `Optional` because the code defends every use with
`description or ""`.  The `metadata` dict the code assembles is only used
for the `if not metadata` fallback test and is dead afterwards, so it is
not returned.  A truthy non-string `module` metadata value raises:
`AttributeError` at `(module or "").strip()` in the template branch,
`TypeError` at `"\n\n".join(parts)` in the synthesis branch. -/
def rewriteEvent (summary : String) (description : Option String)
    (course : String) (cr? : Option CourseRules) : Except PyErr (String × String) :=
  match cr? with
  | none => .ok (summary, description.getD "")
  | some cr =>
    if cr.require_course_in_summary &&
        !strContains summary ("(" ++ course ++ ")") then
      .ok (summary, description.getD "")
    else
      match buildDescription (resolveSummaryModule summary course cr).2 cr
          description with
      | .error e => .error e
      | .ok dsc => .ok ((resolveSummaryModule summary course cr).1, dsc)

/-! ## `split.py`: the splitter loop -/

/-- The event attributes that `split_and_write` reads from each `VEVENT`
(other properties are passed through unchanged and are external to this
model). -/
structure IcsEvent where
  summary : String
  description : String
  location : String
  start : Option PyDateTime

/-- The unnumbered-event scan of `split_and_write`: the first item that
*carries strategies* and matches wins; items without strategies are
skipped. -/
def findFirstMatch (items : List (Option Int × EventItem))
    (summary description location : String) (start : Option PyDateTime) :
    Except PyErr (Option (Option Int × EventItem)) :=
  match items with
  | [] => .ok none
  | (num, item) :: rest =>
    if !item.match_strategies.isEmpty then
      match matchesItem item summary description location start with
      | .error e => .error e
      | .ok true => .ok (some (num, item))
      | .ok false => findFirstMatch rest summary description location start
    else findFirstMatch rest summary description location start

/-- The per-event filtering block of `split_and_write` (lines 58–101):
returns `(should_skip, n, kind)` with `n` possibly reassigned from the
matched unnumbered item. -/
def splitFilter (cr? : Option CourseRules)
    (summary description location : String) (start : Option PyDateTime) :
    Except PyErr (Bool × Option Int × Option String) :=
  match cr? with
  | some cr =>
    if !cr.event_types.isEmpty then
      let nk := extractNumberAndKind summary (some cr)
      let n := nk.1
      let kind := nk.2
      let et? := if kindTruthy kind then
          cr.event_types.find? (fun et => kind = some et.type)
        else none
      match et? with
      | some et =>
        if !et.items.isEmpty then
          match n with
          | some nn =>
            (match alookup et.items (some nn) with
             | some item =>
               if !item.match_strategies.isEmpty then
                 (match matchesItem item summary description location start with
                  | .error e => .error e
                  | .ok b => .ok (!b, n, kind))
               else .ok (false, n, kind)
             | none => .ok (false, n, kind))
          | none =>
            (match findFirstMatch et.items summary description location start with
             | .error e => .error e
             | .ok (some (num, _)) => .ok (false, num, kind)
             | .ok none =>
               .ok (et.items.any (fun p => !p.2.match_strategies.isEmpty),
                    n, kind))
        else .ok (false, n, kind)
      | none => .ok (false, n, kind)
    else .ok (false, none, none)
  | none => .ok (false, none, none)

/-- The event loop of `split_and_write` (split.py).  Buckets map a course
to its kept events' `(summary, description)` pairs; the numeric results
are the `total`/`kept`/`filtered` counters.  After the filtering block the
source calls `rewrite_event(summary, description, course, cr, n, kind)` —
six positional arguments for a function defined with four parameters
(rewrite.py line 121) — so CPython raises `TypeError` at that call; the
loop has no exception handler, so the error propagates and the remaining
events are never processed. -/
def splitGo (rules : List (String × CourseRules)) :
    List IcsEvent → List (String × List (String × String)) → Nat → Nat → Nat →
    Except PyErr (List (String × List (String × String)) × Nat × Nat × Nat)
  | [], buckets, total, kept, filtered => .ok (buckets, total, kept, filtered)
  | ev :: rest, buckets, total, kept, filtered =>
    let total' := total + 1
    match detectCourseCode ev.summary ev.description with
    | none => splitGo rules rest buckets total' kept filtered
    | some course =>
      if course = "" then splitGo rules rest buckets total' kept filtered
      else
        let buckets1 := if (alookup buckets course).isSome then buckets
                        else upsert buckets course []
        match splitFilter (alookup rules course) ev.summary ev.description
            ev.location ev.start with
        | .error e => .error e
        | .ok (shouldSkip, _, _) =>
          if shouldSkip then
            splitGo rules rest buckets1 total' kept (filtered + 1)
          else .error .typeError

/-- `split_and_write` (split.py), up to the external calendar
serialization: the parsed upstream events in, the per-course buckets and
counters out. -/
def splitAndWrite (events : List IcsEvent)
    (rules : List (String × CourseRules)) :
    Except PyErr (List (String × List (String × String)) × Nat × Nat × Nat) :=
  splitGo rules events [] 0 0 0

/-! ## Specification-side definitions used by the claim theorems -/

/-- Evaluation of one raw nested strategy value, as the composite branches
do it: `MatchStrategy.from_dict` then `matches_strategy`. -/
def evalSubStrategy (sub : Value) (summary description location : String)
    (start_dt : Option PyDateTime) : Except PyErr Bool :=
  match MatchStrategy.fromDict sub with
  | .error e => .error e
  | .ok st => matchesStrategy st.strategy st.data summary description location
      start_dt

/-- The day a timeslot `day` entry denotes, per the claim's wording:
weekday names mapped case-insensitively (Monday = 0 … Sunday = 6), or a
numeric index. -/
def dayIdx : Value → Option Int
  | .vstr s => alookup dayMap (⟨lowerL s.data⟩ : String)
  | .vint n => some n
  | _ => none

/-- A `pattern`/`location` parameter value that cannot make the engine
raise: absent, falsy, or a string. -/
def POk : Option Value → Prop
  | none => True
  | some v => truthy v = false ∨ ∃ s, v = .vstr s

/-- Bounds of a dict timeslot that cannot make `parse_time` raise: either
one of them is absent, or both are strings that parse. -/
def BoundsOk (ts : List (String × Value)) : Prop :=
  ∀ sv ev, alookup ts "start_time" = some sv → alookup ts "end_time" = some ev →
    (∃ p, pyParseTimeV sv = .ok p) ∧ ∃ q, pyParseTimeV ev = .ok q

/-- A timeslot value that cannot make the time branch raise: a bare string
(legacy, never matches) or a dict with safe bounds. -/
def TimeslotOk : Value → Prop
  | .vstr _ => True
  | .vdict ts => BoundsOk ts
  | _ => False

mutual

/-- Well-formed strategy parameters: on these, `matches_strategy` cannot
raise.  The composite constructors require the `strategies` value to be a
list of dicts whose re-parsed contents are again well-formed. -/
inductive SafeStrat : Value → List (String × Value) → Prop where
  | notStr (v : Value) (data : List (String × Value)) :
      (∀ s, v ≠ .vstr s) → SafeStrat v data
  | other (s : String) (data : List (String × Value)) :
      s ≠ "time" → s ≠ "description" → s ≠ "location" → s ≠ "url" →
      s ≠ "all" → s ≠ "any" → SafeStrat (.vstr s) data
  | time (data : List (String × Value)) :
      TimeslotOk ((alookup data "timeslot").getD (.vdict [])) →
      SafeStrat (.vstr "time") data
  | descr (data : List (String × Value)) :
      POk (alookup data "pattern") → SafeStrat (.vstr "description") data
  | url (data : List (String × Value)) :
      POk (alookup data "pattern") → SafeStrat (.vstr "url") data
  | loc (data : List (String × Value)) :
      POk (alookup data "location") → SafeStrat (.vstr "location") data
  | allNone (data : List (String × Value)) :
      alookup data "strategies" = none → SafeStrat (.vstr "all") data
  | allList (data : List (String × Value)) (subs : List Value) :
      alookup data "strategies" = some (.vlist subs) → SafeSubs subs →
      SafeStrat (.vstr "all") data
  | anyNone (data : List (String × Value)) :
      alookup data "strategies" = none → SafeStrat (.vstr "any") data
  | anyList (data : List (String × Value)) (subs : List Value) :
      alookup data "strategies" = some (.vlist subs) → SafeSubs subs →
      SafeStrat (.vstr "any") data

/-- Each nested strategy value is a dict that re-parses to well-formed
parameters. -/
inductive SafeSubs : List Value → Prop where
  | nil : SafeSubs []
  | cons (e : List (String × Value)) (rest : List Value) :
      SafeStrat (stratOfDict e).strategy (stratOfDict e).data →
      SafeSubs rest → SafeSubs (.vdict e :: rest)

end

/-- The `EventItem.from_dict` image of the last element of `ivs` whose
parsed number is `k`, if any. -/
def revFindItem (k : Option Int) (ivs : List Value) : Option EventItem :=
  ivs.reverse.findSome? (fun iv =>
    match EventItem.fromDict iv with
    | .ok it => if it.number = k then some it else none
    | .error _ => none)

/-- The `{title, module}` record the legacy ingestion loop would store
for `iv` under number `n`: `some` exactly when `iv` is a dict whose
`number` field parses to the positive integer `n`. -/
def ingestAccept (n : Int) (iv : Value) : Option Info :=
  match iv with
  | .vdict item =>
    (match (match alookup item "number" with
            | none => none
            | some nv => pyIntOfValue nv) with
     | some m =>
       if m = n ∧ 0 < n then
         some { title := pyStrip (pyStr ((alookup item "title").getD (.vstr "")))
                module := pyStrip (pyStr ((alookup item "module").getD (.vstr ""))) }
       else none
     | none => none)
  | _ => none

/-- The `{title, module}` record of the last entry of `ivs` that the
legacy ingestion loop accepts under number `n`. -/
def lastValidInfo (n : Int) (ivs : List Value) : Option Info :=
  ivs.reverse.findSome? (ingestAccept n)

/-- A top-level field that is absent, falsy, or a string. -/
def StrOrFalsy (v? : Option Value) : Prop :=
  match v? with
  | none => True
  | some v => truthy v = false ∨ ∃ s, v = .vstr s

/-- A top-level field that is absent, falsy, or a list. -/
def ListOrFalsy (v? : Option Value) : Prop :=
  match v? with
  | none => True
  | some v => truthy v = false ∨ ∃ xs, v = .vlist xs

/-- A `match` field that is absent, falsy, or a dict whose
`summary_regex` is absent, falsy or a string. -/
def MatchFieldOk (v? : Option Value) : Prop :=
  match v? with
  | none => True
  | some v => truthy v = false ∨
      ∃ m, v = .vdict m ∧ StrOrFalsy (alookup m "summary_regex")

/-- Well-typed rule documents: every optional field has the type the
loader expects, so the only failures left are the missing/empty course
identifier ones. -/
def WellTypedDoc (d : List (String × Value)) : Prop :=
  StrOrFalsy (alookup d "canvas") ∧
  StrOrFalsy (alookup d "canvas_url") ∧
  MatchFieldOk (alookup d "match") ∧
  ListOrFalsy (alookup d "items") ∧
  ListOrFalsy (alookup d "lectures") ∧
  ListOrFalsy (alookup d "labs") ∧
  ListOrFalsy (alookup d "exercises") ∧
  (match alookup d "event_types" with
   | none => True
   | some v => ∃ xs, v = .vlist xs)

/-- The schema `detect_schema` resolves a document to, if it does not
raise. -/
def schemaOf (d : List (String × Value)) : Option Schema :=
  match detectSchema d with
  | .ok (s, _) => some s
  | .error _ => none

/-- The exact failure condition of `from_json` on well-typed documents:
no schema can be determined (neither identifier field and no deciding
version marker), schema A was forced without a `course` field, or schema
B resolved with a missing-or-empty `course_code`. -/
def FailCond (d : List (String × Value)) : Prop :=
  schemaOf d = none ∨
  (schemaOf d = some .A ∧ alookup d "course" = none) ∨
  (schemaOf d = some .B ∧
    pyStrip (pyStr ((alookup d "course_code").getD (.vstr ""))) = "")

/-! ### Concrete documents and rule sets used by the claim theorems -/

/-- The round-trip rule document of the spec's testable property (also the
shape of `tests/test_rewrite.py` / `tests/test_split.py`). -/
def docRoundTrip : List (String × Value) :=
  [("course", .vstr "IS1200"),
   ("canvas", .vstr "https://canvas.kth.se/courses/56261"),
   ("match", .vdict [("require_course_in_summary", .vbool true)]),
   ("items", .vlist [.vdict
     [("number", .vint 1), ("title", .vstr "Course Introduction"),
      ("module", .vstr "Module 1")]])]

def crRoundTrip : CourseRules :=
  match fromJson docRoundTrip with
  | .ok (cr, _) => cr
  | .error _ => { course := "" }

/-- A document whose modern `event_types` items carry a negative
occurrence number. -/
def docNegNumber : List (String × Value) :=
  [("course", .vstr "IS1200"),
   ("event_types", .vlist [.vdict
     [("type", .vstr "lecture"), ("patterns", .vstr "Lecture"),
      ("items", .vlist [.vdict [("number", .vint (-5)),
        ("title", .vstr "Negative")]])]])]

/-- A legacy document with a duplicated occurrence number. -/
def docDupNumber : List (String × Value) :=
  [("course", .vstr "IS1200"),
   ("items", .vlist
     [.vdict [("number", .vint 1), ("title", .vstr "First")],
      .vdict [("number", .vint 1), ("title", .vstr "Second")]])]

/-- A legacy document with a non-positive, a non-numeric and a valid
occurrence number (the shape of `tests/test_rules.py`). -/
def docNegLegacy : List (String × Value) :=
  [("course", .vstr "IS1200"),
   ("items", .vlist
     [.vdict [("number", .vint (-5)), ("title", .vstr "Negative")],
      .vdict [("number", .vstr "x"), ("title", .vstr "Bad")],
      .vdict [("number", .vint 1), ("title", .vstr "Positive")]])]

def crDup : CourseRules :=
  match fromJson docDupNumber with
  | .ok (cr, _) => cr
  | .error _ => { course := "" }

def wsDup : List Warn :=
  match fromJson docDupNumber with
  | .ok (_, ws) => ws
  | .error _ => []

/-- A rule set whose matched item carries a non-string `module` metadata
value (loaded from a well-formed document). -/
def docBadModule : List (String × Value) :=
  [("course", .vstr "X"), ("canvas", .vstr "https://c"),
   ("event_types", .vlist [.vdict
     [("type", .vstr "lecture"), ("patterns", .vstr "Lecture"),
      ("items", .vlist [.vdict [("title", .vstr "T"),
        ("module", .vint 5)]])]])]

def crBadModule : CourseRules :=
  match fromJson docBadModule with
  | .ok (cr, _) => cr
  | .error _ => { course := "" }

/-- A document with two unnumbered items in one event type. -/
def docTwoUnnumbered : List (String × Value) :=
  [("course", .vstr "X"),
   ("event_types", .vlist [.vdict
     [("type", .vstr "seminar"), ("patterns", .vstr "Seminar"),
      ("items", .vlist
        [.vdict [("title", .vstr "EarlyUnnumbered")],
         .vdict [("number", .vint 3), ("title", .vstr "Numbered")],
         .vdict [("number", .vstr "notanumber"), ("title", .vstr "LateUnnumbered")]])]])]

/-! # Supporting lemmas -/

theorem dropWhile_self (p : Char → Bool) (l : List Char) :
    (l.dropWhile p).dropWhile p = l.dropWhile p := by
  induction l with
  | nil => rfl
  | cons c tl ih =>
    by_cases h : p c
    · simp [List.dropWhile, h, ih]
    · simp [List.dropWhile, h]

theorem dropTrail_idem (l : List Char) : dropTrail (dropTrail l) = dropTrail l := by
  simp [dropTrail, dropWhile_self]

theorem dropTrail_append (l : List Char) :
    dropTrail l ++ (l.reverse.takeWhile pyWs).reverse = l := by
  have h : (dropTrail l ++ (l.reverse.takeWhile pyWs).reverse).reverse = l.reverse := by
    simp [dropTrail, List.takeWhile_append_dropWhile]
  have := congrArg List.reverse h
  simpa using this

theorem length_dropWhile_le (p : Char → Bool) (l : List Char) :
    (l.dropWhile p).length ≤ l.length := by
  induction l with
  | nil => simp
  | cons c tl ih =>
    by_cases h : p c
    · simp [List.dropWhile, h]
      omega
    · simp [List.dropWhile, h]

theorem dropWhile_eq_self_head (p : Char → Bool) (l : List Char)
    (h : l.dropWhile p = l) : ∀ c tl, l = c :: tl → p c = false := by
  intro c tl hl
  subst hl
  by_contra hpc
  simp only [Bool.not_eq_false] at hpc
  rw [List.dropWhile_cons, if_pos hpc] at h
  have hlen := congrArg List.length h
  have := length_dropWhile_le p tl
  simp at hlen
  omega

theorem dropWhile_dropTrail (l : List Char)
    (h : l.dropWhile pyWs = l) : (dropTrail l).dropWhile pyWs = dropTrail l := by
  cases hd : dropTrail l with
  | nil => rfl
  | cons a u =>
    set X := (l.reverse.takeWhile pyWs).reverse with hX
    have hpre := dropTrail_append l
    rw [hd, ← hX] at hpre
    have hl : l = a :: (u ++ X) := by
      rw [← hpre]
      simp
    have ha : pyWs a = false := dropWhile_eq_self_head pyWs l h a (u ++ X) hl
    simp [List.dropWhile_cons, ha]

theorem stripL_idem (l : List Char) : stripL (stripL l) = stripL l := by
  unfold stripL
  rw [dropWhile_dropTrail (l.dropWhile pyWs) (dropWhile_self pyWs l)]
  exact dropTrail_idem _

theorem pyStrip_idem (s : String) : pyStrip (pyStrip s) = pyStrip s :=
  congrArg String.mk (stripL_idem s.data)

theorem alookup_sizeOf_lt (d : List (String × Value)) (k : String) (v : Value)
    (h : alookup d k = some v) : sizeOf v < sizeOf d := by
  induction d with
  | nil => simp [alookup] at h
  | cons kv tl ih =>
    obtain ⟨k', v'⟩ := kv
    simp only [alookup] at h
    split at h
    · rw [Option.some_inj] at h
      subst h
      simp
      omega
    · have := ih h
      simp
      omega

theorem filter_sizeOf_le (p : String × Value → Bool) (l : List (String × Value)) :
    sizeOf (l.filter p) ≤ sizeOf l := by
  induction l with
  | nil => simp
  | cons kv tl ih =>
    simp only [List.filter]
    split <;> simp only [List.cons.sizeOf_spec] <;> omega

theorem mem_sizeOf_lt (xs : List Value) (x : Value) (h : x ∈ xs) :
    sizeOf x < sizeOf xs := by
  induction xs with
  | nil => cases h
  | cons y tl ih =>
    rcases List.mem_cons.mp h with h1 | h2
    · subst h1
      simp
      omega
    · have := ih h2
      simp
      omega

theorem upsert_lookup_eq {κ α : Type} [DecidableEq κ] (d : List (κ × α))
    (k : κ) (v : α) : alookup (upsert d k v) k = some v := by
  induction d with
  | nil => simp [upsert, alookup]
  | cons kv tl ih =>
    obtain ⟨k', v'⟩ := kv
    by_cases h : k' = k
    · subst h
      simp [upsert, alookup]
    · simp [upsert, alookup, h, ih]

theorem upsert_lookup_ne {κ α : Type} [DecidableEq κ] (d : List (κ × α))
    (k k' : κ) (v : α) (hk : k' ≠ k) :
    alookup (upsert d k v) k' = alookup d k' := by
  have hk' : ¬(k = k') := fun h => hk h.symm
  induction d with
  | nil => simp [upsert, alookup, hk']
  | cons kv tl ih =>
    obtain ⟨k0, v0⟩ := kv
    by_cases h : k0 = k
    · subst h
      simp [upsert, alookup, hk']
    · simp only [upsert, if_neg h, alookup]
      split <;> simp [ih]

theorem upsert_keys_mem {κ α : Type} [DecidableEq κ] (d : List (κ × α))
    (k x : κ) (v : α) :
    x ∈ (upsert d k v).map Prod.fst ↔ x ∈ d.map Prod.fst ∨ x = k := by
  induction d with
  | nil => simp [upsert]
  | cons kv tl ih =>
    obtain ⟨k0, v0⟩ := kv
    by_cases h : k0 = k
    · subst h
      simp [upsert]
      tauto
    · simp only [upsert, if_neg h, List.map_cons, List.mem_cons, ih]
      tauto

theorem upsert_keys_nodup {κ α : Type} [DecidableEq κ] (d : List (κ × α))
    (k : κ) (v : α) (h : (d.map Prod.fst).Nodup) :
    ((upsert d k v).map Prod.fst).Nodup := by
  induction d with
  | nil => simp [upsert]
  | cons kv tl ih =>
    obtain ⟨k0, v0⟩ := kv
    simp only [List.map_cons, List.nodup_cons] at h
    by_cases hk : k0 = k
    · subst hk
      simpa [upsert] using h
    · simp only [upsert, if_neg hk, List.map_cons, List.nodup_cons]
      refine ⟨?_, ih h.2⟩
      intro hmem
      rcases (upsert_keys_mem tl k k0 v).mp hmem with h1 | h1
      · exact h.1 h1
      · exact hk h1

theorem urlHere_shape (cs : List Char) (c : String) (h : urlHere cs = some c) :
    4 ≤ c.length ∧ c.data.all isUrlCodeC = true := by
  simp only [urlHere] at h
  split at h
  · rw [Option.some_inj] at h
    subst h
    rename_i hcond
    refine ⟨hcond.1, ?_⟩
    rw [List.all_eq_true]
    intro a ha
    exact List.mem_takeWhile_imp ha
  · cases h

theorem searchUrlAux_shape (l : List Char) (c : String)
    (h : searchUrlAux l = some c) :
    4 ≤ c.length ∧ c.data.all isUrlCodeC = true := by
  induction l with
  | nil => simp [searchUrlAux] at h
  | cons x tl ih =>
    rw [searchUrlAux] at h
    split at h
    · revert h
      cases hu : urlHere ((x :: tl).drop 8) with
      | none => intro h; exact ih h
      | some r =>
        intro h
        rw [Option.some_inj] at h
        subst h
        exact urlHere_shape _ _ hu
    · exact ih h

/-! # Claim theorems -/

/-- **C4**: `detect_course_code` tries, in strict priority order and
stopping at the first match, the KTH-style pattern on the summary, the
parenthesized-identifier pattern on the summary, and the
`/course/<code>/` pattern on the description (where the code is
upper-case-alphanumeric-with-hyphens of length at least 4), returning
`none` when nothing matches; in particular the four example inputs of the
claim evaluate as stated. -/
theorem C4_detect_course_code_priority :
    (∀ s d c, searchKth s = some c → detectCourseCode s d = some c) ∧
    (∀ s d c, searchKth s = none → searchParens s = some c →
      detectCourseCode s d = some c) ∧
    (∀ s d, searchKth s = none → searchParens s = none →
      detectCourseCode s d = searchUrl d) ∧
    (∀ d c, searchUrl d = some c →
      4 ≤ c.length ∧ c.data.all isUrlCodeC = true) ∧
    detectCourseCode "IS1200 Lecture (OTHER)" "" = some "IS1200" ∧
    detectCourseCode "Meeting at (2024)" "" = none ∧
    detectCourseCode "Download (PDF)" "" = none ∧
    detectCourseCode "" "https://host/course/IS-1200/event/1/" = some "IS-1200" := by
  refine ⟨?_, ?_, ?_, ?_, by decide, by decide, by decide, by decide⟩
  · intro s d c h
    simp [detectCourseCode, h]
  · intro s d c h1 h2
    simp [detectCourseCode, h1, h2]
  · intro s d h1 h2
    simp [detectCourseCode, h1, h2]
  · intro d c h
    exact searchUrlAux_shape d.data c h

/-- Witness for C4 at a concrete input. -/
theorem C4_detect_course_code_priority_witness :
    detectCourseCode "AB1234 x" "" = some "AB1234" :=
  C4_detect_course_code_priority.1 "AB1234 x" "" "AB1234" (by decide)

/-- **C8**: loading the round-trip rule document (course `IS1200`, one
item `{number: 1, title: "Course Introduction", module: "Module 1"}`,
default templates, `require_course_in_summary` true, canvas link set) and
rewriting the summary `"Lecture 1 - Placeholder (IS1200)"` with empty
description yields the summary
`"Lecture 1 - Course Introduction - IS1200"` and a description containing
`"Module 1"` and a `"Canvas:"` line. -/
theorem C8_round_trip_rewrite :
    (fromJson docRoundTrip).isOk = true ∧
    rewriteEvent "Lecture 1 - Placeholder (IS1200)" (some "") "IS1200"
      (some crRoundTrip) =
      .ok ("Lecture 1 - Course Introduction - IS1200",
           "Module 1\n\nCanvas: https://canvas.kth.se/courses/56261") ∧
    strContains "Module 1\n\nCanvas: https://canvas.kth.se/courses/56261"
      "Module 1" = true ∧
    strContains "Module 1\n\nCanvas: https://canvas.kth.se/courses/56261"
      "Canvas:" = true :=
  ⟨rfl, rfl, by decide, by decide⟩

/-- **C2** (code bug): the per-event work of `split_and_write` is *not*
isolated.  `split.py` line 104 calls `rewrite_event` with six positional
arguments while `rewrite.py` line 121 defines it with four, so every kept
event raises `TypeError`; the loop has no handler, so the whole call
aborts and later events are never detected, filtered, rewritten or
bucketed.  On the repository's own test input
(`tests/test_split.py`: one event `"Lecture 1 - Placeholder (IS1200)"`
with the IS1200 rules) the call errors instead of writing one feed, and
with two detectable events the second is never processed; an event
sequence with no detectable course still succeeds, showing the abort is
specific to kept events. -/
theorem C2_split_aborts_on_first_kept_event :
    splitAndWrite [⟨"Lecture 1 - Placeholder (IS1200)", "desc", "", none⟩]
      [("IS1200", crRoundTrip)] = .error .typeError ∧
    splitAndWrite [⟨"IS1200 A", "", "", none⟩, ⟨"IS1200 B", "", "", none⟩]
      [] = .error .typeError ∧
    splitAndWrite [⟨"no course here", "", "", none⟩] [] = .ok ([], 1, 0, 0) :=
  ⟨rfl, rfl, rfl⟩

/-- **C10** (counterexample): `rewrite_event` can raise instead of
returning a description string: with a rule set whose matched item has the
non-string metadata `module: 5` (loaded from a well-formed document), the
empty-description branch raises `TypeError` at `"\n\n".join(parts)` and
the non-empty-description branch raises `AttributeError` at
`(module or "").strip()`. -/
theorem C10_counterexample :
    (fromJson docBadModule).isOk = true ∧
    rewriteEvent "Lecture 1" (some "") "X" (some crBadModule) =
      .error .typeError ∧
    rewriteEvent "Lecture 1" (some "x") "X" (some crBadModule) =
      .error .attributeError :=
  ⟨rfl, rfl, rfl⟩

/-- Every description `buildDescription` returns is already stripped. -/
theorem buildDescription_trimmed (module : Value) (cr : CourseRules)
    (description : Option String) (s : String)
    (h : buildDescription module cr description = .ok s) : s = pyStrip s := by
  rw [buildDescription.eq_def] at h
  split at h
  · repeat split at h
    all_goals cases h
    all_goals exact (pyStrip_idem _).symm
  · split at h
    · cases h
    · cases h
      exact (pyStrip_idem _).symm

/-- **C10** (amended): whenever `rewrite_event` returns, the description
component is a string — the pass-through branches substitute `""` for a
missing description — and a description the function *built* (template
rendering or part concatenation) carries no leading or trailing
whitespace; otherwise the description is the pass-through original. -/
theorem C10_rewrite_description_amended
    (summary : String) (description : Option String) (course : String)
    (cr? : Option CourseRules) (r : String × String)
    (h : rewriteEvent summary description course cr? = .ok r) :
    r.2 = pyStrip r.2 ∨ r.2 = description.getD "" := by
  rw [rewriteEvent.eq_def] at h
  split at h
  · cases h
    right
    rfl
  · rename_i cr
    split at h
    · cases h
      right
      rfl
    · revert h
      cases hb : buildDescription (resolveSummaryModule summary course cr).2 cr
          description with
      | error e =>
        intro h
        cases h
      | ok dsc =>
        intro h
        cases h
        left
        show dsc = pyStrip dsc
        exact buildDescription_trimmed _ _ _ _ hb

/-- Witness for the amended C10 at a concrete input. -/
theorem C10_rewrite_description_amended_witness :
    rewriteEvent "s" (some " d ") "C" none = .ok ("s", " d ") ∧
    (" d " = pyStrip " d " ∨ " d " = (some " d ").getD "") :=
  ⟨rfl, C10_rewrite_description_amended "s" (some " d ") "C" none ("s", " d ") rfl⟩

theorem revFindItem_cons (k : Option Int) (iv : Value) (rest : List Value) :
    revFindItem k (iv :: rest) =
      (revFindItem k rest).or
        (match EventItem.fromDict iv with
         | .ok it => if it.number = k then some it else none
         | .error _ => none) := by
  unfold revFindItem
  rw [List.reverse_cons, List.findSome?_append]
  cases hf : EventItem.fromDict iv with
  | error e => simp [List.findSome?_cons, hf]
  | ok it =>
    simp only [List.findSome?_cons, List.findSome?_nil, hf]
    by_cases hk : it.number = k <;> simp [hk]

theorem etItemsFold_lookup_from (ivs : List Value) : ∀ acc items,
    (List.foldlM (fun acc iv =>
      match EventItem.fromDict iv with
      | Except.error e => Except.error e
      | Except.ok it => Except.ok (upsert acc it.number it)) acc ivs) =
        Except.ok items →
    ∀ k, alookup items k = (revFindItem k ivs).or (alookup acc k) := by
  induction ivs with
  | nil =>
    intro acc items h k
    cases h
    simp [revFindItem]
  | cons iv rest ih =>
    intro acc items h k
    rw [List.foldlM_cons] at h
    cases hf : EventItem.fromDict iv with
    | error e =>
      rw [hf] at h
      simp only [bind, Except.bind] at h
      cases h
    | ok it =>
      rw [hf] at h
      simp only [bind, Except.bind] at h
      have := ih (upsert acc it.number it) items h k
      rw [this, revFindItem_cons, hf]
      cases hr : revFindItem k rest with
      | some x => simp [Option.or]
      | none =>
        simp only [Option.or]
        by_cases hk : it.number = k
        · subst hk
          simp [upsert_lookup_eq]
        · have hk' : k ≠ it.number := fun h => hk h.symm
          simp [upsert_lookup_ne acc it.number k it hk', hk]

theorem etItemsFold_nodup_from (ivs : List Value) : ∀ acc items,
    (acc.map Prod.fst).Nodup →
    (List.foldlM (fun acc iv =>
      match EventItem.fromDict iv with
      | Except.error e => Except.error e
      | Except.ok it => Except.ok (upsert acc it.number it)) acc ivs) =
        Except.ok items →
    (items.map Prod.fst).Nodup := by
  induction ivs with
  | nil =>
    intro acc items hnd h
    cases h
    exact hnd
  | cons iv rest ih =>
    intro acc items hnd h
    rw [List.foldlM_cons] at h
    cases hf : EventItem.fromDict iv with
    | error e =>
      rw [hf] at h
      simp only [bind, Except.bind] at h
      cases h
    | ok it =>
      rw [hf] at h
      simp only [bind, Except.bind] at h
      exact ih _ _ (upsert_keys_nodup acc it.number it hnd) h

/-- **C9**: in every `EventType` the loader produces, items are stored in
a dict keyed by the (possibly null) parsed number, so all items whose
`number` is absent or non-parseable collapse onto the single `none` key:
the keys are unique, looking up a key yields exactly the *last* declared
item with that parsed number, and — as the concrete document with two
unnumbered items shows — the earlier unnumbered item is discarded without
any warning. -/
theorem C9_unnumbered_items_collapse :
    (∀ ivs items, etItemsFold ivs = .ok items →
      (items.map Prod.fst).Nodup ∧
      ∀ k, alookup items k = revFindItem k ivs) ∧
    (match fromJson docTwoUnnumbered with
     | .ok (cr, ws) =>
       ws = [] ∧
       cr.event_types.map
         (fun et => (alookup et.items none).map (fun it => it.get "title")) =
         [some (.vstr "LateUnnumbered")] ∧
       cr.event_types.map
         (fun et => (alookup et.items (some 3)).map (fun it => it.get "title")) =
         [some (.vstr "Numbered")]
     | .error _ => False) := by
  constructor
  · intro ivs items h
    constructor
    · exact etItemsFold_nodup_from ivs [] items (by simp) h
    · intro k
      have := etItemsFold_lookup_from ivs [] items h k
      rw [this]
      cases revFindItem k ivs <;> rfl
  · exact ⟨rfl, rfl, rfl⟩

/-- When the configured day value resolves to an index, `weekdayMatches`
is exactly the comparison of that index with the event weekday. -/
theorem weekdayMatches_of_dayIdx (wd : Nat) (dayv : Value) (idx : Int)
    (h : dayIdx dayv = some idx) :
    weekdayMatches wd dayv = decide (idx = (wd : Int)) := by
  cases dayv with
  | vstr s =>
    simp only [dayIdx] at h
    simp [weekdayMatches, h]
  | vint n =>
    simp only [dayIdx, Option.some_inj] at h
    subst h
    simp [weekdayMatches]
  | vnull => simp [dayIdx] at h
  | vbool b => simp [dayIdx] at h
  | vlist xs => simp [dayIdx] at h
  | vdict xs => simp [dayIdx] at h

/-- **C5**: for a time strategy whose timeslot dict gives a day (a weekday
name mapped case-insensitively with Monday = 0 … Sunday = 6, or a numeric
index) and parseable `start_time`/`end_time` bounds (`"HH:MM"`/`"HHMM"`),
`matches_strategy` returns true exactly when the event has a start
datetime, its weekday equals the configured day, and
`rangeStart ≤ eventMinutes < rangeEnd` with minutes = hour*60+minute (end
exclusive); with no start datetime, or with a bare-string timeslot, the
result is false. -/
theorem C5_time_strategy_semantics :
    (∀ (ts : List (String × Value)) (dayv : Value) (st et : String)
        (idx sh sm eh em : Int) (s d l : String) (dt : PyDateTime),
      alookup ts "day" = some dayv →
      dayIdx dayv = some idx →
      alookup ts "start_time" = some (.vstr st) →
      alookup ts "end_time" = some (.vstr et) →
      pyParseTimeV (.vstr st) = .ok (sh, sm) →
      pyParseTimeV (.vstr et) = .ok (eh, em) →
      matchesStrategy (.vstr "time") [("timeslot", .vdict ts)] s d l (some dt) =
        .ok (decide (idx = (dt.weekday : Int) ∧
          sh * 60 + sm ≤ (dt.hour : Int) * 60 + dt.minute ∧
          (dt.hour : Int) * 60 + dt.minute < eh * 60 + em))) ∧
    (∀ data s d l, matchesStrategy (.vstr "time") data s d l none = .ok false) ∧
    (∀ data tss s d l t, alookup data "timeslot" = some (.vstr tss) →
      matchesStrategy (.vstr "time") data s d l t = .ok false) := by
  refine ⟨?_, ?_, ?_⟩
  · intro ts dayv st et idx sh sm eh em s d l dt hday hidx hst het hpst hpet
    rw [matchesStrategy]
    simp only [alookup, reduceIte, Option.getD_some]
    rw [hday, hst, het]
    dsimp only
    rw [hpst, hpet, weekdayMatches_of_dayIdx dt.weekday dayv idx hidx]
    by_cases hd : idx = (dt.weekday : Int)
    · simp [hd]
    · simp [hd]
  · intro data s d l
    rw [matchesStrategy]
    simp
  · intro data tss s d l t hts
    cases t with
    | none =>
      rw [matchesStrategy]
      simp
    | some dt =>
      rw [matchesStrategy]
      simp [hts]

/-- Witness for C5: the spec's Friday 13:00–15:00 slot matches a Friday
13:00 event. -/
theorem C5_time_strategy_semantics_witness :
    matchesStrategy (.vstr "time")
      [("timeslot", .vdict [("day", .vstr "Friday"),
        ("start_time", .vstr "13:00"), ("end_time", .vstr "15:00")])]
      "" "" "" (some ⟨4, 13, 0⟩) = .ok true := by
  have := C5_time_strategy_semantics.1
    [("day", .vstr "Friday"), ("start_time", .vstr "13:00"),
     ("end_time", .vstr "15:00")]
    (.vstr "Friday") "13:00" "15:00" 4 13 0 15 0 "" "" "" ⟨4, 13, 0⟩
    rfl rfl rfl rfl rfl rfl
  rw [this]
  rfl

theorem matchesAll_ok_true_iff (subs : List Value) (s d l : String)
    (t : Option PyDateTime) :
    matchesAll subs s d l t = .ok true ↔
      ∀ sub ∈ subs, evalSubStrategy sub s d l t = .ok true := by
  induction subs with
  | nil => simp [matchesAll]
  | cons sub rest ih =>
    cases sub with
    | vdict entries =>
      rw [matchesAll]
      cases hm : matchesStrategy (stratOfDict entries).strategy
          (stratOfDict entries).data s d l t with
      | error e =>
        simp only [List.mem_cons]
        constructor
        · intro h
          cases h
        · intro h
          have := h (.vdict entries) (Or.inl rfl)
          rw [evalSubStrategy] at this
          simp only [MatchStrategy.fromDict] at this
          rw [hm] at this
          cases this
      | ok b =>
        cases b with
        | true =>
          rw [ih]
          constructor
          · intro h sub hsub
            rcases List.mem_cons.mp hsub with h1 | h1
            · subst h1
              rw [evalSubStrategy]
              simp only [MatchStrategy.fromDict]
              rw [hm]
            · exact h sub h1
          · intro h sub hsub
            exact h sub (List.mem_cons_of_mem _ hsub)
        | false =>
          constructor
          · intro h
            cases h
          · intro h
            have := h (.vdict entries) (List.mem_cons_self _ _)
            rw [evalSubStrategy] at this
            simp only [MatchStrategy.fromDict] at this
            rw [hm] at this
            cases this
    | vnull =>
      simp only [matchesAll]
      constructor
      · intro h; cases h
      · intro h
        have := h .vnull (List.mem_cons_self _ _)
        rw [evalSubStrategy] at this
        simp only [MatchStrategy.fromDict] at this
        cases this
    | vbool b =>
      simp only [matchesAll]
      constructor
      · intro h; cases h
      · intro h
        have := h (.vbool b) (List.mem_cons_self _ _)
        rw [evalSubStrategy] at this
        simp only [MatchStrategy.fromDict] at this
        cases this
    | vint n =>
      simp only [matchesAll]
      constructor
      · intro h; cases h
      · intro h
        have := h (.vint n) (List.mem_cons_self _ _)
        rw [evalSubStrategy] at this
        simp only [MatchStrategy.fromDict] at this
        cases this
    | vstr str =>
      simp only [matchesAll]
      constructor
      · intro h; cases h
      · intro h
        have := h (.vstr str) (List.mem_cons_self _ _)
        rw [evalSubStrategy] at this
        simp only [MatchStrategy.fromDict] at this
        cases this
    | vlist xs =>
      simp only [matchesAll]
      constructor
      · intro h; cases h
      · intro h
        have := h (.vlist xs) (List.mem_cons_self _ _)
        rw [evalSubStrategy] at this
        simp only [MatchStrategy.fromDict] at this
        cases this

theorem matchesAny_ok_true_iff (subs : List Value) (s d l : String)
    (t : Option PyDateTime) :
    matchesAny subs s d l t = .ok true ↔
      ∃ pre sub post, subs = pre ++ sub :: post ∧
        evalSubStrategy sub s d l t = .ok true ∧
        ∀ x ∈ pre, evalSubStrategy x s d l t = .ok false := by
  induction subs with
  | nil =>
    simp only [matchesAny]
    constructor
    · intro h
      cases h
    · rintro ⟨pre, sub, post, heq, -, -⟩
      exact absurd heq (by simp)
  | cons sub0 rest ih =>
    have evalNonDict : ∀ v : Value, (∀ e : List (String × Value), v ≠ .vdict e) →
        evalSubStrategy v s d l t = .error .attributeError := by
      intro v hv
      rw [evalSubStrategy]
      cases v with
      | vdict e => exact absurd rfl (hv e)
      | vnull => rfl
      | vbool b => rfl
      | vint n => rfl
      | vstr str => rfl
      | vlist xs => rfl
    have step : ∀ r, evalSubStrategy sub0 s d l t = r →
        (match r with
         | .error e => matchesAny (sub0 :: rest) s d l t = .error e
         | .ok true => matchesAny (sub0 :: rest) s d l t = .ok true
         | .ok false => matchesAny (sub0 :: rest) s d l t =
             matchesAny rest s d l t) := by
      intro r hr
      cases sub0 with
      | vdict entries =>
        rw [evalSubStrategy] at hr
        simp only [MatchStrategy.fromDict] at hr
        rw [matchesAny]
        rw [hr]
        cases r with
        | error e => rfl
        | ok b => cases b <;> rfl
      | vnull =>
        rw [evalSubStrategy] at hr
        simp only [MatchStrategy.fromDict] at hr
        subst hr
        simp only [matchesAny]
      | vbool b =>
        rw [evalSubStrategy] at hr
        simp only [MatchStrategy.fromDict] at hr
        subst hr
        simp only [matchesAny]
      | vint n =>
        rw [evalSubStrategy] at hr
        simp only [MatchStrategy.fromDict] at hr
        subst hr
        simp only [matchesAny]
      | vstr str =>
        rw [evalSubStrategy] at hr
        simp only [MatchStrategy.fromDict] at hr
        subst hr
        simp only [matchesAny]
      | vlist xs =>
        rw [evalSubStrategy] at hr
        simp only [MatchStrategy.fromDict] at hr
        subst hr
        simp only [matchesAny]
    cases hr : evalSubStrategy sub0 s d l t with
    | error e =>
      have hstep := step _ hr
      simp only at hstep
      rw [hstep]
      constructor
      · intro h
        cases h
      · rintro ⟨pre, sub, post, heq, hsub, hpre⟩
        cases pre with
        | nil =>
          simp only [List.nil_append, List.cons.injEq] at heq
          rw [heq.1] at hr
          rw [hr] at hsub
          cases hsub
        | cons p pre' =>
          simp only [List.cons_append, List.cons.injEq] at heq
          have := hpre p (List.mem_cons_self _ _)
          rw [heq.1] at hr
          rw [hr] at this
          cases this
    | ok b =>
      cases b with
      | true =>
        have hstep := step _ hr
        simp only at hstep
        rw [hstep]
        constructor
        · intro _
          exact ⟨[], sub0, rest, rfl, hr, by simp⟩
        · intro _
          rfl
      | false =>
        have hstep := step _ hr
        simp only at hstep
        rw [hstep, ih]
        constructor
        · rintro ⟨pre, sub, post, heq, hsub, hpre⟩
          refine ⟨sub0 :: pre, sub, post, by simp [heq], hsub, ?_⟩
          intro x hx
          rcases List.mem_cons.mp hx with h1 | h1
          · subst h1
            exact hr
          · exact hpre x h1
        · rintro ⟨pre, sub, post, heq, hsub, hpre⟩
          cases pre with
          | nil =>
            simp only [List.nil_append, List.cons.injEq] at heq
            rw [heq.1] at hr
            rw [hr] at hsub
            cases hsub
          | cons p pre' =>
            simp only [List.cons_append, List.cons.injEq] at heq
            exact ⟨pre', sub, post, heq.2, hsub,
              fun x hx => hpre x (List.mem_cons_of_mem _ hx)⟩

theorem matchesStrategy_all_list (data : List (String × Value))
    (subs : List Value) (s d l : String) (t : Option PyDateTime)
    (h : alookup data "strategies" = some (.vlist subs)) :
    matchesStrategy (.vstr "all") data s d l t = matchesAll subs s d l t := by
  rw [matchesStrategy.eq_def]
  simp only [String.reduceEq, reduceIte]
  split
  · rename_i heq
    rw [h] at heq
    cases heq
  · rename_i sv heq
    rw [h] at heq
    rw [Option.some_inj] at heq
    subst heq
    rfl

theorem matchesStrategy_any_list (data : List (String × Value))
    (subs : List Value) (s d l : String) (t : Option PyDateTime)
    (h : alookup data "strategies" = some (.vlist subs)) :
    matchesStrategy (.vstr "any") data s d l t = matchesAny subs s d l t := by
  rw [matchesStrategy.eq_def]
  simp only [String.reduceEq, reduceIte]
  split
  · rename_i heq
    rw [h] at heq
    cases heq
  · rename_i sv heq
    rw [h] at heq
    rw [Option.some_inj] at heq
    subst heq
    rfl

theorem matchesStrategy_all_none (data : List (String × Value))
    (s d l : String) (t : Option PyDateTime)
    (h : alookup data "strategies" = none) :
    matchesStrategy (.vstr "all") data s d l t = .ok true := by
  rw [matchesStrategy.eq_def]
  simp only [String.reduceEq, reduceIte]
  split
  · rfl
  · rename_i sv heq
    rw [h] at heq
    cases heq

theorem matchesStrategy_any_none (data : List (String × Value))
    (s d l : String) (t : Option PyDateTime)
    (h : alookup data "strategies" = none) :
    matchesStrategy (.vstr "any") data s d l t = .ok false := by
  rw [matchesStrategy.eq_def]
  simp only [String.reduceEq, reduceIte]
  split
  · rfl
  · rename_i sv heq
    rw [h] at heq
    cases heq

/-- **C6** (counterexample): an `any` composite does *not* return true
whenever at least one nested strategy matches: with nested strategies
`[description-with-integer-pattern, location "q"]` against location
`"Q17"`, the second nested strategy alone evaluates to true, but the
composite raises `TypeError` (from `re.compile(5)`) while evaluating the
first one. -/
theorem C6_counterexample :
    matchesStrategy (.vstr "any")
      [("strategies", .vlist
        [.vdict [("strategy", .vstr "description"), ("pattern", .vint 5)],
         .vdict [("strategy", .vstr "location"), ("location", .vstr "q")]])]
      "" "" "Q17" none = .error .typeError ∧
    evalSubStrategy
      (.vdict [("strategy", .vstr "location"), ("location", .vstr "q")])
      "" "" "Q17" none = .ok true := by
  constructor
  · simp [matchesStrategy, matchesAny, stratOfDict, alookup, List.filter, truthy]
  · rw [evalSubStrategy]
    simp only [MatchStrategy.fromDict]
    simp [matchesStrategy, stratOfDict, alookup, List.filter, truthy]
    decide

/-- **C6** (amended): an `all` composite returns true iff every nested
strategy evaluates to true (vacuously true on an empty or absent list);
an `any` composite returns true iff some nested strategy evaluates to
true *and every nested strategy before it evaluates to false* (in
particular none of the earlier ones raises), and returns false on an
empty or absent list. -/
theorem C6_composite_semantics_amended :
    (∀ data subs s d l t, alookup data "strategies" = some (.vlist subs) →
      matchesStrategy (.vstr "all") data s d l t = matchesAll subs s d l t ∧
      matchesStrategy (.vstr "any") data s d l t = matchesAny subs s d l t) ∧
    (∀ data s d l t, alookup data "strategies" = none →
      matchesStrategy (.vstr "all") data s d l t = .ok true ∧
      matchesStrategy (.vstr "any") data s d l t = .ok false) ∧
    (∀ subs s d l t, matchesAll subs s d l t = .ok true ↔
      ∀ sub ∈ subs, evalSubStrategy sub s d l t = .ok true) ∧
    (∀ s d l t, matchesAll [] s d l t = .ok true ∧
      matchesAny [] s d l t = .ok false) ∧
    (∀ subs s d l t, matchesAny subs s d l t = .ok true ↔
      ∃ pre sub post, subs = pre ++ sub :: post ∧
        evalSubStrategy sub s d l t = .ok true ∧
        ∀ x ∈ pre, evalSubStrategy x s d l t = .ok false) := by
  refine ⟨?_, ?_, matchesAll_ok_true_iff, ?_, matchesAny_ok_true_iff⟩
  · intro data subs s d l t h
    exact ⟨matchesStrategy_all_list data subs s d l t h,
           matchesStrategy_any_list data subs s d l t h⟩
  · intro data s d l t h
    exact ⟨matchesStrategy_all_none data s d l t h,
           matchesStrategy_any_none data s d l t h⟩
  · intro s d l t
    rw [matchesAll.eq_def, matchesAny.eq_def]
    exact ⟨rfl, rfl⟩

/-- Witness for the amended C6 at a concrete composite. -/
theorem C6_composite_semantics_amended_witness :
    matchesStrategy (.vstr "all")
      [("strategies", .vlist [])] "" "" "" none = matchesAll [] "" "" "" none :=
  (C6_composite_semantics_amended.1 [("strategies", .vlist [])] [] "" "" ""
    none rfl).1

theorem C9_unnumbered_items_collapse_witness :
    (([((none : Option Int),
        ({ number := none, metadata := [("title", Value.vstr "A")],
           match_strategies := [] } : EventItem))].map Prod.fst).Nodup ∧
     ∀ k, alookup [((none : Option Int),
        ({ number := none, metadata := [("title", Value.vstr "A")],
           match_strategies := [] } : EventItem))] k =
        revFindItem k [Value.vdict [("title", Value.vstr "A")]]) :=
  C9_unnumbered_items_collapse.1 [Value.vdict [("title", Value.vstr "A")]] _ rfl

theorem lastValidInfo_cons (n : Int) (iv : Value) (rest : List Value) :
    lastValidInfo n (iv :: rest) =
      (lastValidInfo n rest).or (ingestAccept n iv) := by
  unfold lastValidInfo
  rw [List.reverse_cons, List.findSome?_append]
  cases h : ingestAccept n iv with
  | none => simp [List.findSome?_cons, h]
  | some i => simp [List.findSome?_cons, h]

theorem ingestStep_lookup (acc : List (Int × Info) × List Warn) (iv : Value)
    (n : Int) :
    alookup (ingestStep acc iv).1 n = (ingestAccept n iv).or (alookup acc.1 n) := by
  cases iv with
  | vdict item =>
    simp only [ingestStep, ingestAccept]
    cases hm : (match alookup item "number" with
                | none => none
                | some nv => pyIntOfValue nv) with
    | none => rfl
    | some m =>
      dsimp only
      by_cases hm0 : m ≤ 0
      · rw [if_pos hm0]
        by_cases hmn : m = n
        · subst hmn
          rw [if_neg (by omega : ¬(m = m ∧ 0 < m))]
          rfl
        · rw [if_neg (fun hc => hmn hc.1)]
          rfl
      · rw [if_neg hm0]
        dsimp only
        by_cases hmn : m = n
        · subst hmn
          rw [if_pos ⟨rfl, by omega⟩, upsert_lookup_eq]
          rfl
        · have hne : n ≠ m := fun hc => hmn hc.symm
          rw [if_neg (fun hc => hmn hc.1), upsert_lookup_ne acc.1 m n _ hne]
          rfl
  | vnull => rfl
  | vbool b => rfl
  | vint m => rfl
  | vstr s => rfl
  | vlist xs => rfl

theorem ingest_lookup_from (ivs : List Value) : ∀ (acc : List (Int × Info) × List Warn) (n : Int),
    alookup (ivs.foldl ingestStep acc).1 n =
      (lastValidInfo n ivs).or (alookup acc.1 n) := by
  induction ivs with
  | nil =>
    intro acc n
    simp [lastValidInfo]
  | cons iv rest ih =>
    intro acc n
    rw [List.foldl_cons, lastValidInfo_cons, ih (ingestStep acc iv) n,
        ingestStep_lookup]
    cases lastValidInfo n rest <;> cases ingestAccept n iv <;> rfl

theorem ingestItems_lookup (ivs : List Value) (n : Int) :
    alookup (ingestItems ivs).1 n = lastValidInfo n ivs := by
  rw [ingestItems, ingest_lookup_from]
  cases lastValidInfo n ivs <;> rfl

theorem ingestAccept_pos (n : Int) (iv : Value) (info : Info)
    (h : ingestAccept n iv = some info) : 0 < n := by
  cases iv with
  | vdict item =>
    simp only [ingestAccept] at h
    split at h
    · split at h
      · rename_i hcond
        exact hcond.2
      · cases h
    · cases h
  | vnull => cases h
  | vbool b => cases h
  | vint m => cases h
  | vstr s => cases h
  | vlist xs => cases h

theorem findSome_accept_pos (n : Int) (l : List Value) (info : Info)
    (h : l.findSome? (ingestAccept n) = some info) : 0 < n := by
  induction l with
  | nil => cases h
  | cons x tl ih =>
    rw [List.findSome?_cons] at h
    cases hx : ingestAccept n x with
    | some i => exact ingestAccept_pos n x i hx
    | none =>
      rw [hx] at h
      exact ih h

theorem lastValidInfo_pos (n : Int) (ivs : List Value) (info : Info)
    (h : lastValidInfo n ivs = some info) : 0 < n :=
  findSome_accept_pos n ivs.reverse info h

theorem alookup_isSome_of_mem {κ α : Type} [DecidableEq κ] (d : List (κ × α))
    (k : κ) (h : k ∈ d.map Prod.fst) : (alookup d k).isSome := by
  induction d with
  | nil => cases h
  | cons kv tl ih =>
    obtain ⟨k0, v0⟩ := kv
    simp only [List.map_cons, List.mem_cons] at h
    by_cases hk : k0 = k
    · simp [alookup, hk]
    · rcases h with h | h
      · exact absurd h.symm hk
      · simp only [alookup, if_neg hk]
        exact ih h

theorem ingestItems_keys_pos (ivs : List Value) (n : Int)
    (h : n ∈ (ingestItems ivs).1.map Prod.fst) : 0 < n := by
  have h1 := alookup_isSome_of_mem _ n h
  rw [ingestItems_lookup] at h1
  cases hl : lastValidInfo n ivs with
  | none => rw [hl] at h1; cases h1
  | some info => exact lastValidInfo_pos n ivs info hl

theorem fromJsonA_buckets (d : List (String × Value)) (w0 : List Warn)
    (cr : CourseRules) (ws : List Warn) (h : fromJsonA d w0 = .ok (cr, ws)) :
    (∃ ivs, cr.lectures = (ingestItems ivs).1) ∧ cr.labs = [] ∧
      cr.exercises = [] := by
  rw [fromJsonA] at h
  dsimp only at h
  split at h
  · cases h
  split at h
  · cases h
  split at h
  · cases h
  split at h
  · cases h
  split at h
  · cases h
  rename_i ivs hivs
  split at h
  · cases h
  cases h
  exact ⟨⟨ivs, rfl⟩, rfl, rfl⟩

theorem fromJsonB_buckets (d : List (String × Value)) (w0 : List Warn)
    (cr : CourseRules) (ws : List Warn) (h : fromJsonB d w0 = .ok (cr, ws)) :
    ∃ lv bv ev, cr.lectures = (ingestItems lv).1 ∧
      cr.labs = (ingestItems bv).1 ∧ cr.exercises = (ingestItems ev).1 := by
  rw [fromJsonB] at h
  dsimp only at h
  split at h
  · cases h
  split at h
  · cases h
  split at h
  · cases h
  split at h
  · cases h
  split at h
  · cases h
  rename_i lv hlv
  split at h
  · cases h
  rename_i bv hbv
  split at h
  · cases h
  rename_i ev hev
  split at h
  · cases h
  cases h
  exact ⟨lv, bv, ev, rfl, rfl, rfl⟩

/-- **C3** (counterexample): occurrence-number validation does *not* reach
the items mapping of modern `EventTypeRule`s: loading a document whose
`event_types` item carries `number: -5` succeeds, stores the item under
the key `-5` in the event type's items dict, and logs no warning at all —
refuting both the positivity invariant and the reject-with-a-warning
behaviour for the modern path (only the legacy buckets validate). -/
theorem C3_counterexample :
    (fromJson docNegNumber).map (fun p =>
      (p.1.event_types.map (fun et => et.items.map Prod.fst), p.2)) =
    .ok ([[some (-5)]], []) := rfl

/-- **C3** (amended): the legacy lecture/lab/exercise buckets do validate:
every key of every bucket of a successfully loaded rule set is a positive
integer; looking a number up in an ingested bucket yields exactly the
`{title, module}` record of the *last* item the loop accepts under that
number (last-wins); and on the concrete duplicate-number document the
loader returns the second item's data with a duplicate-number warning,
while the concrete non-positive/non-numeric document skips both bad items
with one warning each.  (The modern `event_types` items mapping performs
no such validation — see the counterexample.) -/
theorem C3_number_validation_amended :
    (∀ d cr ws, fromJson d = .ok (cr, ws) →
      (∀ n, n ∈ cr.lectures.map Prod.fst → 0 < n) ∧
      (∀ n, n ∈ cr.labs.map Prod.fst → 0 < n) ∧
      (∀ n, n ∈ cr.exercises.map Prod.fst → 0 < n)) ∧
    (∀ ivs n, alookup (ingestItems ivs).1 n = lastValidInfo n ivs) ∧
    ((fromJson docDupNumber).map (fun p => (p.1.lectures, p.2)) =
      .ok ([(1, { title := "Second", module := "" })], [.duplicateNumber])) ∧
    ((fromJson docNegLegacy).map (fun p => (p.1.lectures, p.2)) =
      .ok ([(1, { title := "Positive", module := "" })],
           [.nonPositiveNumber, .invalidNumber])) := by
  refine ⟨?_, fun ivs n => ingestItems_lookup ivs n, rfl, rfl⟩
  intro d cr ws h
  rw [fromJson] at h
  split at h
  · cases h
  · obtain ⟨⟨ivs, hl⟩, hb, he⟩ := fromJsonA_buckets _ _ _ _ h
    refine ⟨?_, ?_, ?_⟩
    · intro n hn
      rw [hl] at hn
      exact ingestItems_keys_pos ivs n hn
    · intro n hn
      rw [hb] at hn
      cases hn
    · intro n hn
      rw [he] at hn
      cases hn
  · obtain ⟨lv, bv, ev, hl, hb, he⟩ := fromJsonB_buckets _ _ _ _ h
    refine ⟨?_, ?_, ?_⟩
    · intro n hn
      rw [hl] at hn
      exact ingestItems_keys_pos lv n hn
    · intro n hn
      rw [hb] at hn
      exact ingestItems_keys_pos bv n hn
    · intro n hn
      rw [he] at hn
      exact ingestItems_keys_pos ev n hn

/-- Witness for the amended C3: the duplicate-number document's surviving
key is positive, by the theorem applied at that document. -/
theorem C3_number_validation_amended_witness :
    0 < (1 : Int) :=
  (C3_number_validation_amended.1 docDupNumber crDup wsDup rfl).1 1 (by decide)

theorem descr_branch_safe (data : List (String × Value)) (s d l : String)
    (t : Option PyDateTime) (hp : POk (alookup data "pattern")) :
    ∃ b, matchesStrategy (.vstr "description") data s d l t = .ok b := by
  rw [matchesStrategy.eq_def]
  simp only [String.reduceEq, reduceIte]
  cases hv : alookup data "pattern" with
  | none => exact ⟨false, by (try rw [hv]); rfl⟩
  | some v =>
    rw [hv] at hp
    simp only [POk] at hp
    try rw [hv]
    simp only [Option.getD_some]
    rcases hp with htr | ⟨str, rfl⟩
    · exact ⟨false, by (try rw [htr]); rfl⟩
    · cases htr : truthy (.vstr str) with
      | false => exact ⟨false, by (try rw [htr]); rfl⟩
      | true =>
        cases hc : reCompileDyn str with
        | none =>
          exact ⟨false, by
            (try rw [htr]); simp only [Bool.not_true, reduceIte]; rw [hc]; rfl⟩
        | some pat =>
          exact ⟨reSearchBool pat (s ++ " " ++ d), by
            (try rw [htr]); simp only [Bool.not_true, reduceIte]; rw [hc]; rfl⟩

theorem loc_branch_safe (data : List (String × Value)) (s d l : String)
    (t : Option PyDateTime) (hp : POk (alookup data "location")) :
    ∃ b, matchesStrategy (.vstr "location") data s d l t = .ok b := by
  rw [matchesStrategy.eq_def]
  simp only [String.reduceEq, reduceIte]
  cases hv : alookup data "location" with
  | none => exact ⟨false, by (try rw [hv]); rfl⟩
  | some v =>
    rw [hv] at hp
    simp only [POk] at hp
    try rw [hv]
    simp only [Option.getD_some]
    rcases hp with htr | ⟨str, rfl⟩
    · exact ⟨false, by (try rw [htr]); rfl⟩
    · cases htr : truthy (.vstr str) with
      | false => exact ⟨false, by (try rw [htr]); rfl⟩
      | true => exact ⟨strContainsCI l str, by (try rw [htr]); rfl⟩

theorem url_branch_safe (data : List (String × Value)) (s d l : String)
    (t : Option PyDateTime) (hp : POk (alookup data "pattern")) :
    ∃ b, matchesStrategy (.vstr "url") data s d l t = .ok b := by
  rw [matchesStrategy.eq_def]
  simp only [String.reduceEq, reduceIte]
  cases hv : alookup data "pattern" with
  | none => exact ⟨false, by (try rw [hv]); rfl⟩
  | some v =>
    rw [hv] at hp
    simp only [POk] at hp
    try rw [hv]
    simp only [Option.getD_some]
    rcases hp with htr | ⟨str, rfl⟩
    · exact ⟨false, by (try rw [htr]); rfl⟩
    · cases htr : truthy (.vstr str) with
      | false => exact ⟨false, by (try rw [htr]); rfl⟩
      | true =>
        cases hc : reCompileDyn str with
        | none =>
          exact ⟨false, by
            (try rw [htr]); simp only [Bool.not_true, reduceIte]; rw [hc]; rfl⟩
        | some pat =>
          exact ⟨reSearchBool pat d, by
            (try rw [htr]); simp only [Bool.not_true, reduceIte]; rw [hc]; rfl⟩

theorem time_branch_safe (data : List (String × Value)) (s d l : String)
    (t : Option PyDateTime)
    (hts : TimeslotOk ((alookup data "timeslot").getD (.vdict []))) :
    ∃ b, matchesStrategy (.vstr "time") data s d l t = .ok b := by
  cases t with
  | none => exact ⟨false, by rw [matchesStrategy.eq_def]; rfl⟩
  | some dt =>
    rw [matchesStrategy.eq_def]
    simp only [String.reduceEq, reduceIte]
    cases hv : (alookup data "timeslot").getD (.vdict []) with
    | vstr str => exact ⟨false, by (try rw [hv]); rfl⟩
    | vdict ts =>
      rw [hv] at hts
      simp only [TimeslotOk] at hts
      try rw [hv]
      dsimp only
      split
      · exact ⟨false, rfl⟩
      · split
        · rename_i sv ev hsv hev
          obtain ⟨⟨p, hp⟩, ⟨q, hq⟩⟩ := hts sv ev hsv hev
          obtain ⟨sh, sm⟩ := p
          obtain ⟨eh, em⟩ := q
          exact ⟨decide (sh * 60 + sm ≤ ((dt.hour : Int) * 60 + dt.minute) ∧
              ((dt.hour : Int) * 60 + dt.minute) < eh * 60 + em),
            by rw [hp, hq]; try rfl⟩
        · exact ⟨true, rfl⟩
    | vnull => simp only [TimeslotOk, hv] at hts
    | vbool b => simp only [TimeslotOk, hv] at hts
    | vint n => simp only [TimeslotOk, hv] at hts
    | vlist xs => simp only [TimeslotOk, hv] at hts

theorem subs_safe (N : Nat)
    (ih : ∀ strategy data, sizeOf data < N → SafeStrat strategy data →
      ∀ (s d l : String) (t : Option PyDateTime),
        ∃ b, matchesStrategy strategy data s d l t = .ok b) :
    ∀ subs, sizeOf subs < N → SafeSubs subs →
    ∀ (s d l : String) (t : Option PyDateTime),
    (∃ b, matchesAll subs s d l t = .ok b) ∧
    (∃ b, matchesAny subs s d l t = .ok b) := by
  intro subs
  induction subs with
  | nil =>
    intro _ _ s d l t
    exact ⟨⟨true, by rw [matchesAll.eq_def]⟩, ⟨false, by rw [matchesAny.eq_def]⟩⟩
  | cons x rest ihrest =>
    intro hN hsubs s d l t
    cases hsubs with
    | cons e rest2 hse hrest =>
      simp only [List.cons.sizeOf_spec, Value.vdict.sizeOf_spec] at hN
      have hrest_lt : sizeOf rest < N := by omega
      obtain ⟨⟨ba, hba⟩, ⟨bo, hbo⟩⟩ := ihrest hrest_lt hrest s d l t
      have hdata_lt : sizeOf (stratOfDict e).data < N := by
        have hfe : sizeOf (List.filter
            (fun kv => decide (kv.1 ≠ "strategy" ∧ kv.1 ≠ "priority")) e) ≤
            sizeOf e := filter_sizeOf_le _ e
        simp only [stratOfDict]
        omega
      obtain ⟨b1, hb1⟩ := ih (stratOfDict e).strategy (stratOfDict e).data
        hdata_lt hse s d l t
      constructor
      · rw [matchesAll.eq_def]
        dsimp only
        rw [hb1]
        cases b1 with
        | true => exact ⟨ba, hba⟩
        | false => exact ⟨false, rfl⟩
      · rw [matchesAny.eq_def]
        dsimp only
        rw [hb1]
        cases b1 with
        | true => exact ⟨true, rfl⟩
        | false => exact ⟨bo, hbo⟩

theorem safe_no_raise : ∀ (N : Nat) (strategy : Value)
    (data : List (String × Value)), sizeOf data < N → SafeStrat strategy data →
    ∀ (s d l : String) (t : Option PyDateTime),
      ∃ b, matchesStrategy strategy data s d l t = .ok b := by
  intro N
  induction N with
  | zero =>
    intro _ data h
    exact absurd h (Nat.not_lt_zero _)
  | succ N ih =>
    intro strategy data hsize hsafe s d l t
    cases hsafe with
    | notStr _ _ hv =>
      cases strategy with
      | vstr s0 => exact absurd rfl (hv s0)
      | vnull => exact ⟨false, by rw [matchesStrategy.eq_def]; try rfl⟩
      | vint n => exact ⟨false, by rw [matchesStrategy.eq_def]; try rfl⟩
      | vbool b => exact ⟨false, by rw [matchesStrategy.eq_def]; try rfl⟩
      | vlist xs => exact ⟨false, by rw [matchesStrategy.eq_def]; try rfl⟩
      | vdict d2 => exact ⟨false, by rw [matchesStrategy.eq_def]; try rfl⟩
    | other s0 _ h1 h2 h3 h4 h5 h6 =>
      exact ⟨false, by
        rw [matchesStrategy.eq_def]
        dsimp only
        rw [if_neg h1, if_neg h2, if_neg h3, if_neg h4, if_neg h5, if_neg h6]⟩
    | time _ hts => exact time_branch_safe data s d l t hts
    | descr _ hp => exact descr_branch_safe data s d l t hp
    | url _ hp => exact url_branch_safe data s d l t hp
    | loc _ hp => exact loc_branch_safe data s d l t hp
    | allNone _ hnone =>
      exact ⟨true, matchesStrategy_all_none data s d l t hnone⟩
    | anyNone _ hnone =>
      exact ⟨false, matchesStrategy_any_none data s d l t hnone⟩
    | allList _ subs hlook hsubs =>
      have h1 := alookup_sizeOf_lt data "strategies" _ hlook
      have hsub_lt : sizeOf subs < N := by
        simp at h1
        omega
      rw [matchesStrategy_all_list data subs s d l t hlook]
      exact (subs_safe N ih subs hsub_lt hsubs s d l t).1
    | anyList _ subs hlook hsubs =>
      have h1 := alookup_sizeOf_lt data "strategies" _ hlook
      have hsub_lt : sizeOf subs < N := by
        simp at h1
        omega
      rw [matchesStrategy_any_list data subs s d l t hlook]
      exact (subs_safe N ih subs hsub_lt hsubs s d l t).2

/-- **C1** (counterexample): `matches_strategy` is *not* total: a time
strategy whose timeslot gives both bounds but a non-parseable
`start_time` string makes `parse_time` raise `ValueError` (from
`int("xx")`), which propagates out of the match engine. -/
theorem C1_counterexample :
    matchesStrategy (.vstr "time")
      [("timeslot", .vdict [("start_time", .vstr "xx:yy"),
        ("end_time", .vstr "15:00")])]
      "" "" "" (some ⟨4, 13, 0⟩) = .error .valueError := by
  rw [matchesStrategy.eq_def]
  rfl

/-- **C1** (amended): on well-formed strategy parameters (`SafeStrat`:
any non-string or unknown strategy name; a time strategy whose timeslot
is a bare string or a dict whose bounds, when both present, parse; a
description/url/location strategy whose parameter is absent, falsy or a
string; composites whose nested strategies are dicts that recursively
satisfy the same) `matches_strategy` always returns a boolean and never
raises; and the specific malformed-regex and missing-parameter cases the
spec names do yield false: a dynamic pattern that fails to compile gives
false for both the description and the url strategy, as does an absent
`pattern` parameter.  Outside `SafeStrat` the engine can raise — see the
counterexample. -/
theorem C1_matches_strategy_amended :
    (∀ strategy data (s d l : String) (t : Option PyDateTime),
      SafeStrat strategy data →
      ∃ b, matchesStrategy strategy data s d l t = .ok b) ∧
    (∀ data p (s d l : String) (t : Option PyDateTime),
      alookup data "pattern" = some (.vstr p) → reCompileDyn p = none →
      matchesStrategy (.vstr "description") data s d l t = .ok false ∧
      matchesStrategy (.vstr "url") data s d l t = .ok false) ∧
    (∀ data (s d l : String) (t : Option PyDateTime),
      alookup data "pattern" = none →
      matchesStrategy (.vstr "description") data s d l t = .ok false ∧
      matchesStrategy (.vstr "url") data s d l t = .ok false) := by
  refine ⟨?_, ?_, ?_⟩
  · intro strategy data s d l t hsafe
    exact safe_no_raise (sizeOf data + 1) strategy data (Nat.lt_succ_self _)
      hsafe s d l t
  · intro data p s d l t hv hc
    constructor
    · rw [matchesStrategy.eq_def]
      simp only [String.reduceEq, reduceIte]
      try rw [hv]
      simp only [Option.getD_some]
      cases htr : truthy (.vstr p) with
      | false => (try rw [htr]); rfl
      | true =>
        try rw [htr]
        simp only [Bool.not_true, reduceIte]
        rw [hc]
        rfl
    · rw [matchesStrategy.eq_def]
      simp only [String.reduceEq, reduceIte]
      try rw [hv]
      simp only [Option.getD_some]
      cases htr : truthy (.vstr p) with
      | false => (try rw [htr]); rfl
      | true =>
        try rw [htr]
        simp only [Bool.not_true, reduceIte]
        rw [hc]
        rfl
  · intro data s d l t hv
    constructor
    · rw [matchesStrategy.eq_def]
      simp only [String.reduceEq, reduceIte]
      try rw [hv]
      rfl
    · rw [matchesStrategy.eq_def]
      simp only [String.reduceEq, reduceIte]
      try rw [hv]
      rfl

/-- Witness for the amended C1 at a concrete malformed regex. -/
theorem C1_matches_strategy_amended_witness :
    matchesStrategy (.vstr "description") [("pattern", .vstr "(")] "" "" "" none
      = .ok false ∧
    matchesStrategy (.vstr "url") [("pattern", .vstr "(")] "" "" "" none
      = .ok false :=
  C1_matches_strategy_amended.2.1 [("pattern", .vstr "(")] "(" "" "" "" none
    rfl rfl


theorem parseOptStrField_ok (d : List (String × Value)) (key : String)
    (h : StrOrFalsy (alookup d key)) :
    ∃ r, parseOptStrField d key = .ok r := by
  rw [parseOptStrField]
  cases hv : alookup d key with
  | none => exact ⟨none, by (try rw [hv]); rfl⟩
  | some v =>
    rw [hv] at h
    simp only [StrOrFalsy] at h
    try rw [hv]
    simp only [Option.getD_some]
    rcases h with htr | ⟨str, rfl⟩
    · rw [htr]
      exact ⟨none, rfl⟩
    · cases htr : truthy (.vstr str) with
      | false => exact ⟨none, by (try rw [htr]); rfl⟩
      | true =>
        exact ⟨if pyStrip str = "" then none else some (pyStrip str),
          by (try rw [htr]); rfl⟩

theorem parseMatchBlock_ok (d : List (String × Value))
    (h : MatchFieldOk (alookup d "match")) :
    ∃ p, parseMatchBlock d = .ok p ∧ StrOrFalsy p.2 := by
  rw [parseMatchBlock]
  cases hv : alookup d "match" with
  | none => exact ⟨(false, none), by (try rw [hv]); rfl, trivial⟩
  | some v =>
    rw [hv] at h
    simp only [MatchFieldOk] at h
    try rw [hv]
    simp only [Option.getD_some]
    rcases h with htr | ⟨m, rfl, hsr⟩
    · rw [htr]
      exact ⟨(false, none), rfl, trivial⟩
    · cases htr : truthy (.vdict m) with
      | false => exact ⟨(false, none), by (try rw [htr]); rfl, trivial⟩
      | true =>
        refine ⟨(truthy ((alookup m "require_course_in_summary").getD
          (.vbool false)), alookup m "summary_regex"), ?_, hsr⟩
        (try rw [htr])
        rfl

theorem parseSummaryRegexV_ok (sv? : Option Value) (w : Bool)
    (h : StrOrFalsy sv?) : ∃ r, parseSummaryRegexV sv? w = .ok r := by
  cases sv? with
  | none => exact ⟨(none, []), rfl⟩
  | some v =>
    simp only [StrOrFalsy] at h
    rcases h with htr | ⟨str, rfl⟩
    · rw [parseSummaryRegexV.eq_def]
      dsimp only
      rw [htr]
      exact ⟨(none, []), rfl⟩
    · rw [parseSummaryRegexV.eq_def]
      dsimp only
      cases htr : truthy (.vstr str) with
      | false => exact ⟨(none, []), by (try rw [htr]); rfl⟩
      | true =>
        (try rw [htr])
        simp only [reduceIte]
        cases hc : reCompileDyn str with
        | none =>
          exact ⟨(some .fixedLecture, if w then [.invalidSummaryRegex] else []),
            by (try rw [hc]); rfl⟩
        | some p => exact ⟨(some p, []), by (try rw [hc]); rfl⟩

theorem getIterList_ok (d : List (String × Value)) (key : String)
    (h : ListOrFalsy (alookup d key)) :
    ∃ xs, getIterList d key = .ok xs := by
  rw [getIterList]
  cases hv : alookup d key with
  | none => exact ⟨[], by (try rw [hv]); rfl⟩
  | some v =>
    rw [hv] at h
    simp only [ListOrFalsy] at h
    try rw [hv]
    simp only [Option.getD_some]
    rcases h with htr | ⟨xs, rfl⟩
    · rw [htr]
      exact ⟨[], rfl⟩
    · cases htr : truthy (.vlist xs) with
      | false => exact ⟨[], by (try rw [htr]); rfl⟩
      | true =>
        refine ⟨xs, ?_⟩
        (try rw [htr])
        simp only [reduceIte]
        rfl

theorem parseETBlock_ok (v? : Option Value) (migrated : List EventType)
    (h : match v? with
         | none => True
         | some v => ∃ xs, v = .vlist xs) :
    ∃ r, parseETBlock v? migrated = .ok r := by
  cases v? with
  | none => exact ⟨(migrated, []), rfl⟩
  | some v =>
    simp only at h
    obtain ⟨xs, rfl⟩ := h
    exact ⟨parseETList xs, rfl⟩

theorem fromJsonA_total (d : List (String × Value)) (w0 : List Warn)
    (h : WellTypedDoc d) (cv : Value) (hc : alookup d "course" = some cv) :
    ∃ r, fromJsonA d w0 = .ok r := by
  obtain ⟨hcanvas, _, hmatch, hitems, _, _, _, hets⟩ := h
  rw [fromJsonA]
  try dsimp only
  rw [hc]
  try dsimp only
  obtain ⟨r1, h1⟩ := parseOptStrField_ok d "canvas" hcanvas
  rw [h1]
  try dsimp only
  obtain ⟨p2, h2, hsr⟩ := parseMatchBlock_ok d hmatch
  obtain ⟨rcs, srxv⟩ := p2
  rw [h2]
  try dsimp only
  obtain ⟨r3, h3⟩ := parseSummaryRegexV_ok srxv false hsr
  obtain ⟨srx, w1⟩ := r3
  rw [h3]
  try dsimp only
  obtain ⟨ivs, h4⟩ := getIterList_ok d "items" hitems
  rw [h4]
  try dsimp only
  obtain ⟨r5, h5⟩ := parseETBlock_ok (alookup d "event_types") _ hets
  obtain ⟨ets, w5⟩ := r5
  rw [h5]
  try dsimp only
  exact ⟨_, rfl⟩

theorem fromJsonB_total (d : List (String × Value)) (w0 : List Warn)
    (h : WellTypedDoc d)
    (hcc : ¬(pyStrip (pyStr ((alookup d "course_code").getD (.vstr ""))) = "")) :
    ∃ r, fromJsonB d w0 = .ok r := by
  obtain ⟨_, hcanvas, hmatch, _, hlects, hlabs, hexs, hets⟩ := h
  rw [fromJsonB]
  try dsimp only
  rw [if_neg hcc]
  try dsimp only
  obtain ⟨r1, h1⟩ := parseOptStrField_ok d "canvas_url" hcanvas
  rw [h1]
  try dsimp only
  obtain ⟨p2, h2, hsr⟩ := parseMatchBlock_ok d hmatch
  obtain ⟨rcs, srxv⟩ := p2
  rw [h2]
  try dsimp only
  obtain ⟨r3, h3⟩ := parseSummaryRegexV_ok srxv true hsr
  obtain ⟨srx, w1⟩ := r3
  rw [h3]
  try dsimp only
  obtain ⟨lvs, h4⟩ := getIterList_ok d "lectures" hlects
  rw [h4]
  try dsimp only
  obtain ⟨bvs, h5⟩ := getIterList_ok d "labs" hlabs
  rw [h5]
  try dsimp only
  obtain ⟨evs, h6⟩ := getIterList_ok d "exercises" hexs
  rw [h6]
  try dsimp only
  obtain ⟨r7, h7⟩ := parseETBlock_ok (alookup d "event_types") _ hets
  obtain ⟨ets, w7⟩ := r7
  rw [h7]
  try dsimp only
  exact ⟨_, rfl⟩

theorem fromJsonA_err_no_course (d : List (String × Value)) (w0 : List Warn)
    (hc : alookup d "course" = none) : fromJsonA d w0 = .error .keyError := by
  rw [fromJsonA]
  dsimp only
  rw [hc]

theorem fromJsonB_err_empty (d : List (String × Value)) (w0 : List Warn)
    (hcc : pyStrip (pyStr ((alookup d "course_code").getD (.vstr ""))) = "") :
    fromJsonB d w0 = .error .valueError := by
  rw [fromJsonB]
  dsimp only
  rw [if_pos hcc]

theorem schemaOf_err (d : List (String × Value)) (e : PyErr)
    (h : detectSchema d = .error e) : schemaOf d = none := by
  rw [schemaOf, h]

theorem schemaOf_ok (d : List (String × Value)) (s : Schema) (ws : List Warn)
    (h : detectSchema d = .ok (s, ws)) : schemaOf d = some s := by
  rw [schemaOf, h]

theorem C7_conj1 (d : List (String × Value)) (h : WellTypedDoc d) :
    (∃ e, fromJson d = .error e) ↔ FailCond d := by
  constructor
  · rintro ⟨e, he⟩
    rw [fromJson] at he
    cases hds : detectSchema d with
    | error e2 => exact Or.inl (schemaOf_err d e2 hds)
    | ok p =>
      obtain ⟨sch, w0⟩ := p
      rw [hds] at he
      cases sch with
      | A =>
        dsimp only at he
        cases hc : alookup d "course" with
        | none => exact Or.inr (Or.inl ⟨schemaOf_ok d .A w0 hds, hc⟩)
        | some cv =>
          obtain ⟨r, hr⟩ := fromJsonA_total d w0 h cv hc
          rw [hr] at he
          cases he
      | B =>
        dsimp only at he
        by_cases hcc : pyStrip (pyStr ((alookup d "course_code").getD
            (.vstr ""))) = ""
        · exact Or.inr (Or.inr ⟨schemaOf_ok d .B w0 hds, hcc⟩)
        · obtain ⟨r, hr⟩ := fromJsonB_total d w0 h hcc
          rw [hr] at he
          cases he
  · intro hf
    rcases hf with h0 | ⟨hA, hc⟩ | ⟨hB, hcc⟩
    · cases hds : detectSchema d with
      | error e => exact ⟨e, by rw [fromJson, hds]⟩
      | ok p =>
        obtain ⟨sch, w0⟩ := p
        rw [schemaOf_ok d sch w0 hds] at h0
        cases h0
    · cases hds : detectSchema d with
      | error e => rw [schemaOf_err d e hds] at hA; cases hA
      | ok p =>
        obtain ⟨sch, w0⟩ := p
        rw [schemaOf_ok d sch w0 hds] at hA
        rw [Option.some_inj] at hA
        subst hA
        exact ⟨.keyError, by
          rw [fromJson, hds]
          exact fromJsonA_err_no_course d w0 hc⟩
    · cases hds : detectSchema d with
      | error e => rw [schemaOf_err d e hds] at hB; cases hB
      | ok p =>
        obtain ⟨sch, w0⟩ := p
        rw [schemaOf_ok d sch w0 hds] at hB
        rw [Option.some_inj] at hB
        subst hB
        exact ⟨.valueError, by
          rw [fromJson, hds]
          exact fromJsonB_err_empty d w0 hcc⟩

theorem detectInfer_both (d : List (String × Value)) (w0 : List Warn)
    (hC : (alookup d "course").isSome = true)
    (hCC : (alookup d "course_code").isSome = true) :
    detectInfer d w0 = .ok (.A, w0 ++ [.bothCourseFields]) := by
  rw [detectInfer]
  rw [if_neg (fun hcon => hcon.2 hCC), if_neg (fun hcon => hcon.2 hC),
    if_pos ⟨hC, hCC⟩]

theorem detectSchema_unknown (d : List (String × Value)) (v : Value)
    (hv : alookup d "schema_version" = some v)
    (hA : v.eqStr "A" = false) (ha : v.eqStr "a" = false)
    (h1 : v.eqStr "1" = false) (hB : v.eqStr "B" = false)
    (hb : v.eqStr "b" = false) (h2 : v.eqStr "2" = false) :
    detectSchema d = detectInfer d [.unknownSchemaVersion] := by
  rw [detectSchema.eq_def]
  rw [hv]
  dsimp only
  simp only [hA, ha, h1, hB, hb, h2, Bool.or_self, Bool.or_false,
    Bool.false_or, reduceIte]
  rfl


/-- **C7** (counterexample): loading can fail even when a course
identifier is present: a document with `course` and a truthy non-string
`canvas` raises `AttributeError` at `(data.get("canvas") or "").strip()`,
so the failure condition is not limited to the missing-identifier and
empty-`course_code` cases. -/
theorem C7_counterexample :
    fromJson [("course", .vstr "OK"), ("canvas", .vint 5)] =
      .error .attributeError := rfl

/-- **C7** (amended): restricted to well-typed documents (every optional
field has the type the loader expects), loading fails exactly when no
schema can be determined (neither identifier field present and no
deciding `schema_version`), when schema A was resolved without a `course`
field, or when the document resolves to schema B with a missing-or-empty
(after strip) `course_code`; with both identifier fields present (and no
deciding version) field inference picks schema A with the ambiguity
warning; and an unrecognized `schema_version` value falls through to
field-based inference after logging a warning.  On ill-typed documents
`from_json` can raise in other ways — see the counterexample. -/
theorem C7_loader_failure_amended :
    (∀ d, WellTypedDoc d → ((∃ e, fromJson d = .error e) ↔ FailCond d)) ∧
    (∀ d w0, (alookup d "course").isSome = true →
      (alookup d "course_code").isSome = true →
      detectInfer d w0 = .ok (.A, w0 ++ [.bothCourseFields])) ∧
    (∀ d v, alookup d "schema_version" = some v →
      v.eqStr "A" = false → v.eqStr "a" = false → v.eqStr "1" = false →
      v.eqStr "B" = false → v.eqStr "b" = false → v.eqStr "2" = false →
      detectSchema d = detectInfer d [.unknownSchemaVersion]) :=
  ⟨C7_conj1, detectInfer_both, detectSchema_unknown⟩

/-- Witness for the amended C7: a document carrying both identifier
fields resolves to schema A with the ambiguity warning. -/
theorem C7_loader_failure_amended_witness :
    detectInfer [("course", .vstr "X"), ("course_code", .vstr "Y")] [] =
      .ok (.A, [.bothCourseFields]) :=
  C7_loader_failure_amended.2.1 [("course", .vstr "X"),
    ("course_code", .vstr "Y")] [] rfl rfl

end CalSplit
